import Mathlib

/-!
Verification of the LocalWinAgent intent-routing core (src/intent_router.py,
src/tools/files.py) against its natural-language specification.

The Python code is shallowly embedded: strings are Lean `String`s (with the
per-character work done on `List Char`), `time.time()` timestamps are `ℤ`,
file-system contents are association lists from paths to contents, and the
external collaborators (the OS `open`, the app launcher, the office-document
codecs, the LLM) are oracle parameters.  Unless a doc comment says
`Modelled from the spec:`, every definition is a direct translation of the
Python source named in its doc comment.
-/

namespace LocalWinAgent

/-- Lower-casing of a single character, covering ASCII letters and the
Cyrillic range А..Я plus Ё, which is what `str.lower()` does on the
alphabets the router's patterns use. -/
def lowerChar (c : Char) : Char :=
  if 'A' ≤ c ∧ c ≤ 'Z' then Char.ofNat (c.toNat + 32)
  else if 'А' ≤ c ∧ c ≤ 'Я' then Char.ofNat (c.toNat + 32)
  else if c = 'Ё' then 'ё'
  else c

/-- Lower-casing of a character list (`str.lower()`). -/
def lowerL (l : List Char) : List Char := l.map lowerChar

/-- Whitespace test matching Python's `str.strip()` / regex `\s` on the
ASCII whitespace characters (the only ones appearing in the router's
messages). -/
def isWs (c : Char) : Bool :=
  c = ' ' ∨ c = '\t' ∨ c = '\n' ∨ c = '\r' ∨ c = '\x0b' ∨ c = '\x0c'

/-- Python `str.strip()` on a character list. -/
def pyStripL (l : List Char) : List Char :=
  ((l.dropWhile isWs).reverse.dropWhile isWs).reverse

/-- Python `str.strip()`. -/
def pyStrip (s : String) : String := ⟨pyStripL s.data⟩

/-- Python `str.isdigit()` restricted to ASCII digits (the context tokens
are captured by the regex group `\d+`). -/
def isDigitL (l : List Char) : Bool := !l.isEmpty && l.all Char.isDigit

/-- Python `int(...)` on a string of decimal digits. -/
def digitsToNat (l : List Char) : Nat :=
  l.foldl (fun acc c => 10 * acc + (c.toNat - 48)) 0

/-- `l` starts with the literal stem `stem` (Python `str.startswith`). -/
def hasStem : List Char → List Char → Bool
  | [], _ => true
  | _ :: _, [] => false
  | p :: ps, c :: cs => p = c && hasStem ps cs

/-- The uniform response envelope assembled by
`IntentRouter._make_response` (src/intent_router.py lines 1384-1402); the
`data` field is omitted since no claim inspects it. -/
structure Response where
  reply : String
  ok : Bool
  requiresConfirmation : Bool := false
  items : Option (List String) := none
  deriving DecidableEq

/-- `IntentRouter._make_response`. -/
def mkResponse (reply : String) (ok : Bool) (requiresConfirmation : Bool := false)
    (items : Option (List String) := none) : Response :=
  { reply := reply, ok := ok, requiresConfirmation := requiresConfirmation, items := items }

/-- `SessionState` (src/intent_router.py lines 214-218): the dialogue
context of last results, their kind, and the update timestamp. -/
structure SessionState where
  lastResults : List String := []
  lastKind : String := "none"
  lastUpdated : ℤ := 0
  deriving DecidableEq

/-- `SessionState.clear_results` (lines 229-232). -/
def clearResults (_st : SessionState) : SessionState :=
  { lastResults := [], lastKind := "none", lastUpdated := 0 }

/-- `SessionState.set_results` (lines 220-227): falsy (empty-string) items
are filtered out; a nonempty remainder replaces the stored triple, an
empty one clears instead. -/
def setResults (st : SessionState) (results : List String) (kind : String) (now : ℤ) :
    SessionState :=
  let filtered := results.filter (fun item => item ≠ "")
  if filtered ≠ [] then { lastResults := filtered, lastKind := kind, lastUpdated := now }
  else clearResults st

/-- `SessionState.get_results` (lines 234-237): an optional kind filter;
no time-to-live check happens here. -/
def getResults (st : SessionState) (kind : Option String) : List String :=
  match kind with
  | some k => if k ≠ st.lastKind then [] else st.lastResults
  | none => st.lastResults

/-- The TTL purge at the head of `IntentRouter.handle_message`
(lines 729-730): stored results older than 900 seconds are cleared before
the turn is processed. -/
def ttlPurge (now : ℤ) (st : SessionState) : SessionState :=
  if st.lastResults ≠ [] ∧ now - st.lastUpdated > 900 then clearResults st else st

/-- The head of `IntentRouter.handle_message` (lines 722-731): strip the
text, answer `Пустая команда.` on an empty message, otherwise purge the
expired context and hand over to the rest of the pipeline (the intent
inference and dispatch, abstracted as the continuation `rest` so that the
theorems can quantify over it). -/
def handleMessage (rest : String → SessionState → SessionState × Response) (now : ℤ)
    (text : String) (st : SessionState) : SessionState × Response :=
  let message := pyStrip text
  if message = "" then (st, mkResponse "Пустая команда." false)
  else rest message (ttlPurge now st)

/-- The operations a `SessionState` is driven by (claim C6 quantifies over
sequences of them); `get` is read-only. -/
inductive CtxOp
  | set (results : List String) (kind : String) (now : ℤ)
  | clear
  | get (kind : Option String)
  deriving DecidableEq

/-- Apply one `CtxOp` to a `SessionState`. -/
def applyCtxOp (st : SessionState) : CtxOp → SessionState
  | .set results kind now => setResults st results kind now
  | .clear => clearResults st
  | .get _ => st

/-- Run a sequence of `CtxOp`s from a starting state. -/
def runCtxOps (ops : List CtxOp) (st : SessionState) : SessionState :=
  ops.foldl applyCtxOp st

/-- The pronoun tokens of `IntentRouter._resolve_context_index`
(line 819). -/
def pronounTokens : List (List Char) := ["его".data, "ее".data, "её".data, "их".data]

/-- The raw (unbounded) index of `IntentRouter._resolve_context_index`
(lines 814-827): digit strings first, then the prefix "последн" (last),
the pronouns, then the `WORD_TO_INDEX` prefix map перв/втор/трет. -/
def rawContextIndex (t : List Char) (total : Nat) : Option Int :=
  if isDigitL t then some ((digitsToNat t : Int) - 1)
  else if hasStem ("последн".data) t then some ((total : Int) - 1)
  else if t ∈ pronounTokens then some 0
  else if hasStem ("перв".data) t then some 0
  else if hasStem ("втор".data) t then some 1
  else if hasStem ("трет".data) t then some 2
  else none

/-- `IntentRouter._resolve_context_index` (lines 813-830): the raw index
of the lowered token, bounds-checked against `total`. -/
def resolveContextIndex (token : String) (total : Nat) : Option Nat :=
  match rawContextIndex (lowerL token.data) total with
  | none => none
  | some idx => if idx < 0 ∨ (total : Int) ≤ idx then none else some idx.toNat

/-- The `use_context` test of `IntentRouter._handle_open_file`
(lines 885-890): the token looks like a context reference when it is a
digit string, a pronoun, or starts with перв/втор/трет/послед. -/
def isContextShapedToken (t : List Char) : Bool :=
  isDigitL t || t ∈ pronounTokens ||
    hasStem ("перв".data) t || hasStem ("втор".data) t ||
    hasStem ("трет".data) t || hasStem ("послед".data) t

/-- Outcome of `FileManager.open_path` viewed from the router: the oracle
`openOk` abstracts the OS shell-open; the third component traces which
path was handed to `open_path`. -/
def openOutcome (openOk : String → Bool) (st : SessionState) (target : String) :
    SessionState × Response × Option String :=
  if openOk target then (st, mkResponse ("Открыл: " ++ target) true, some target)
  else (st, mkResponse ("Не удалось открыть: " ++ target) false, some target)

/-- `IntentRouter._handle_open_file` (lines 876-914): strip the raw path,
re-interpret digit/pronoun/ordinal tokens against the stored file results
(refreshing `last_updated`), otherwise open the token directly without
touching the dialogue context. -/
def handleOpenFile (openOk : String → Bool) (now : ℤ) (raw : Option String)
    (st : SessionState) : SessionState × Response × Option String :=
  match raw with
  | none => (st, mkResponse "Не указан путь для открытия." false, none)
  | some rawPath =>
    let token := pyStrip rawPath
    if token = "" then (st, mkResponse "Не указан путь для открытия." false, none)
    else if isContextShapedToken (lowerL token.data) then
      let candidates := getResults st (some "file")
      if candidates = [] then
        (st, mkResponse "Нет сохранённых результатов для открытия." false, none)
      else
        match resolveContextIndex token candidates.length with
        | none =>
          (st, mkResponse ("Выберите число от 1 до " ++ toString candidates.length ++
            " или используйте 'первый/последний'.") false, none)
        | some index =>
          let target := candidates.getD index ""
          openOutcome openOk { st with lastUpdated := now } target
    else openOutcome openOk st token

/-- `IntentRouter._handle_context_commands` after the `CONTEXT_RE` match
(lines 793-811), taking the captured reference token: dereference the
stored results and re-dispatch by kind (file → `_handle_open_file`,
web/app → reopen via the oracle, refreshing `last_updated` on success
without replacing the stored list, per `_format_response` /
`_finalize_app_launch`). -/
def handleContextReference (openOk openWebOk launchOk : String → Bool) (now : ℤ)
    (token : String) (st : SessionState) : SessionState × Response × Option String :=
  if st.lastResults = [] then
    (st, mkResponse "Нет сохранённых результатов для открытия." false, none)
  else
    match resolveContextIndex token st.lastResults.length with
    | none =>
      (st, mkResponse ("Выберите число от 1 до " ++ toString st.lastResults.length ++
        " или используйте 'первый/последний'.") false, none)
    | some index =>
      let item := st.lastResults.getD index ""
      if st.lastKind = "file" then
        handleOpenFile openOk now (some item) st
      else if st.lastKind = "web" then
        if openWebOk item then
          ({ st with lastUpdated := now }, mkResponse ("Открыт сайт: " ++ item) true, some item)
        else (st, mkResponse ("Ошибка: " ++ item) false, some item)
      else if st.lastKind = "app" then
        if launchOk item then
          ({ st with lastUpdated := now }, mkResponse ("Открыто: " ++ item) true, some item)
        else (st, mkResponse ("Не удалось открыть приложение" ) false, some item)
      else (st, mkResponse "Контекст недоступен для повторного открытия." false, none)

/-- The final path component (the part after the last `/` or `\`,
Python `PurePath.name` as far as suffix extraction is concerned). -/
def lastComponent (s : String) : List Char :=
  (s.data.reverse.takeWhile (fun c => ¬(c = '/' ∨ c = '\\'))).reverse

/-- Python `PurePath.suffix`: the extension of the final component —
`name[i:]` for `i = name.rfind('.')` when `0 < i < len(name) - 1`, else
empty. -/
def pathSuffix (s : String) : String :=
  let name := lastComponent s
  let revAfter := name.reverse.takeWhile (fun c => c ≠ '.')
  if revAfter.length = name.length then ""
  else if revAfter = [] then ""
  else if name.length ≤ revAfter.length + 1 then ""
  else ⟨'.' :: revAfter.reverse⟩

/-- `str.lower()` on a string. -/
def lowerS (s : String) : String := ⟨lowerL s.data⟩

/-- Association-list lookup (`dict.get`). -/
def lookupAL (m : List (String × String)) (k : String) : Option String :=
  (m.find? (fun e => e.1 == k)).map (·.2)

/-- `FILE_KIND_EXT` (src/tools/files.py lines 46-51). -/
def FILE_KIND_EXT : List (String × String) :=
  [("txt", ".txt"), ("docx", ".docx"), ("xlsx", ".xlsx"), ("pptx", ".pptx")]

/-- `KIND_BY_EXTENSION` (src/tools/files.py line 71, mirrored in
src/intent_router.py line 37): the inverse of `FILE_KIND_EXT`. -/
def KIND_BY_EXTENSION : List (String × String) :=
  [(".txt", "txt"), (".docx", "docx"), (".xlsx", "xlsx"), (".pptx", "pptx")]

/-- `FILE_TYPE_EXT` (src/tools/files.py lines 53-69). -/
def FILE_TYPE_EXT : List (String × String) :=
  [("текст", ".txt"), ("текстовый", ".txt"), ("txt", ".txt"), ("text", ".txt"),
   ("word", ".docx"), ("ворд", ".docx"), ("документ", ".docx"), ("docx", ".docx"),
   ("excel", ".xlsx"), ("таблица", ".xlsx"), ("xls", ".xlsx"), ("xlsx", ".xlsx"),
   ("ppt", ".pptx"), ("pptx", ".pptx"), ("презентация", ".pptx")]

/-- `FILE_KIND_ALIASES` (src/tools/files.py lines 72-76): each alias of
`FILE_TYPE_EXT` mapped to the kind of its extension. -/
def FILE_KIND_ALIASES : List (String × String) :=
  FILE_TYPE_EXT.filterMap (fun e =>
    (lookupAL KIND_BY_EXTENSION e.2).map (fun kind => (e.1, kind)))

/-- `DEFAULT_KIND` (src/intent_router.py line 50). -/
def DEFAULT_KIND : String := "txt"

/-- `FileManager._normalize_kind` (src/tools/files.py lines 223-231). -/
def normalizeKind : Option String → Option String
  | none => none
  | some k0 =>
    if k0 = "" then none
    else
      let key := lowerS (pyStrip k0)
      if (lookupAL FILE_KIND_EXT key).isSome then some key
      else
        match lookupAL FILE_KIND_ALIASES key with
        | some mapped => some mapped
        | none => none

/-- `IntentRouter._resolve_file_kind` (src/intent_router.py
lines 832-843): a recognized extension wins, then a kind key or alias,
then `DEFAULT_KIND`. -/
def resolveFileKind (path : String) (kind : Option String) : String :=
  let ext := lowerS (pathSuffix path)
  match lookupAL KIND_BY_EXTENSION ext with
  | some k => k
  | none =>
    match kind with
    | some key0 =>
      let key := lowerS key0
      if (lookupAL FILE_KIND_EXT key).isSome then key
      else
        match lookupAL FILE_KIND_ALIASES key with
        | some mapped => mapped
        | none => DEFAULT_KIND
    | none => DEFAULT_KIND

/-- `FileManager._detect_kind_from_path` (src/tools/files.py
lines 330-337). -/
def detectKindFromPath (path : String) (fallback : Option String) : String :=
  let ext := lowerS (pathSuffix path)
  match lookupAL KIND_BY_EXTENSION ext with
  | some k => k
  | none =>
    match normalizeKind fallback with
    | some n => n
    | none => "txt"

/-- The extension-override step of `IntentInferencer._parse_create_command`
(src/intent_router.py lines 503-506): when the explicit path carries a
recognized extension, that extension's kind replaces the keyword-inferred
one. -/
def createKindOverride (explicitPath : String) (kind : Option String) : Option String :=
  let ext := lowerS (pathSuffix explicitPath)
  match lookupAL KIND_BY_EXTENSION ext with
  | some k => some k
  | none => kind

/-- The file system as the `FileManager` observes it: resolved paths with
string contents (office-document serialization is the business of the
external codec libraries; the model stores the logical content). -/
abbrev FS := List (String × String)

/-- Content of a path. -/
def lookupFS (fs : FS) (p : String) : Option String :=
  (fs.find? (fun e => e.1 == p)).map (·.2)

/-- Delete a path. -/
def removeFS (fs : FS) (p : String) : FS :=
  fs.filter (fun e => !(e.1 == p))

/-- Create or overwrite a path. -/
def setFS (fs : FS) (p c : String) : FS := (p, c) :: removeFS fs p

/-- `FileManager._inspect` (src/tools/files.py lines 275-282). -/
def inspectFS (fs : FS) (p : String) : Bool × Nat :=
  match lookupFS fs p with
  | some c => (true, c.length)
  | none => (false, 0)

/-- The result dictionary built by `FileManager._finalize`
(src/tools/files.py lines 284-312). -/
structure FileInfo where
  ok : Bool
  path : String
  requiresConfirmation : Bool
  fileExists : Bool := false
  size : Nat := 0
  error : Option String := none
  deriving DecidableEq

/-- `FileManager._make_confirmation` (src/tools/files.py lines 255-266). -/
def makeConfirmation (fs : FS) (p : String) (opName : String) : FileInfo :=
  let insp := inspectFS fs p
  { ok := false, path := p, requiresConfirmation := true,
    fileExists := insp.1, size := insp.2,
    error := some ("Требуется подтверждение для " ++ opName) }

/-- `FileManager._ensure_allowed` (src/tools/files.py lines 268-273):
`none` when the path is allow-listed or the operation confirmed, otherwise
the confirmation-required result. -/
def ensureAllowed (allowed : String → Bool) (fs : FS) (p : String) (confirmed : Bool)
    (opName : String) : Option FileInfo :=
  if allowed p || confirmed then none else some (makeConfirmation fs p opName)

/-- The kind-extension step of `FileManager._resolve_path`
(src/tools/files.py lines 233-244): a normalized kind's extension is
appended when the path has no suffix.  (Environment-variable and
home-directory expansion act on the concrete machine and are outside the
model: paths are taken as already resolved.) -/
def resolvePathKind (p : String) (kind : Option String) : String :=
  match normalizeKind kind with
  | some nk => if pathSuffix p = "" then p ++ (lookupAL FILE_KIND_EXT nk).getD "" else p
  | none => p

/-- Successful-outcome result (the `_finalize` call of the write paths:
`ok` is the post-operation existence). -/
def finalizeOk (fs : FS) (p : String) : FileInfo :=
  let insp := inspectFS fs p
  { ok := insp.1, path := p, requiresConfirmation := false,
    fileExists := insp.1, size := insp.2 }

/-- Error-outcome result (`FileManager._handle_exception`,
src/tools/files.py lines 314-328). -/
def errorInfo (fs : FS) (p : String) (msg : String) : FileInfo :=
  let insp := inspectFS fs p
  { ok := false, path := p, requiresConfirmation := false,
    fileExists := insp.1, size := insp.2, error := some msg }

/-- `FileManager.create_file` (src/tools/files.py lines 409-465): resolve
the target with the kind's extension, gate on the allow-list, then write
(the txt branch writes the text; the docx/xlsx/pptx branches build the
document through the external codecs, modelled as storing the logical
content). -/
def createFile (allowed : String → Bool) (fs : FS) (path content : String)
    (kind : Option String) (confirmed : Bool) : FS × FileInfo :=
  let target := resolvePathKind path kind
  match ensureAllowed allowed fs target confirmed "создания файла" with
  | some denied => (fs, denied)
  | none =>
    let fs' := setFS fs target content
    (fs', finalizeOk fs' target)

/-- `FileManager.write_text` (src/tools/files.py lines 467-488). -/
def writeText (allowed : String → Bool) (fs : FS) (path content : String)
    (confirmed : Bool) : FS × FileInfo :=
  match ensureAllowed allowed fs path confirmed "записи файла" with
  | some denied => (fs, denied)
  | none =>
    let fs' := setFS fs path content
    (fs', finalizeOk fs' path)

/-- `FileManager.append_text` (src/tools/files.py lines 490-512): appends
when the file exists (`mode="a"`), writes fresh otherwise. -/
def appendText (allowed : String → Bool) (fs : FS) (path content : String)
    (confirmed : Bool) : FS × FileInfo :=
  match ensureAllowed allowed fs path confirmed "добавления текста" with
  | some denied => (fs, denied)
  | none =>
    let fs' := setFS fs path ((lookupFS fs path).getD "" ++ content)
    (fs', finalizeOk fs' path)

/-- `FileManager.edit_word` (src/tools/files.py lines 536-583): resolve
with kind `docx`, gate, then hand the old document and the new text to the
word codec (`officeApply "docx"`, an external collaborator). -/
def editWord (officeApply : String → Option String → String → String)
    (allowed : String → Bool) (fs : FS) (path content : String) (confirmed : Bool) :
    FS × FileInfo :=
  let target := resolvePathKind path (some "docx")
  match ensureAllowed allowed fs target confirmed "редактирования документа" with
  | some denied => (fs, denied)
  | none =>
    let fs' := setFS fs target (officeApply "docx" (lookupFS fs target) content)
    (fs', finalizeOk fs' target)

/-- `FileManager.edit_excel` (src/tools/files.py lines 585-611); the cell
placement is the codec's business, abstracted into `officeApply "xlsx"`. -/
def editExcel (officeApply : String → Option String → String → String)
    (allowed : String → Bool) (fs : FS) (path value : String) (confirmed : Bool) :
    FS × FileInfo :=
  let target := resolvePathKind path (some "xlsx")
  match ensureAllowed allowed fs target confirmed "редактирования таблицы" with
  | some denied => (fs, denied)
  | none =>
    let fs' := setFS fs target (officeApply "xlsx" (lookupFS fs target) value)
    (fs', finalizeOk fs' target)

/-- `FileManager.edit_pptx` (src/tools/files.py lines 613-649). -/
def editPptx (officeApply : String → Option String → String → String)
    (allowed : String → Bool) (fs : FS) (path content : String) (confirmed : Bool) :
    FS × FileInfo :=
  let target := resolvePathKind path (some "pptx")
  match ensureAllowed allowed fs target confirmed "редактирования презентации" with
  | some denied => (fs, denied)
  | none =>
    let fs' := setFS fs target (officeApply "pptx" (lookupFS fs target) content)
    (fs', finalizeOk fs' target)

/-- `FileManager.move_path` (src/tools/files.py lines 675-692): both ends
are gated; a missing source makes `shutil.move` raise, surfaced as an
error result on the destination. -/
def movePath (allowed : String → Bool) (fs : FS) (src dst : String) (confirmed : Bool) :
    FS × FileInfo :=
  match ensureAllowed allowed fs src confirmed "перемещения файла" with
  | some denied => (fs, denied)
  | none =>
    match ensureAllowed allowed fs dst confirmed "перемещения файла" with
    | some denied => (fs, denied)
    | none =>
      match lookupFS fs src with
      | none => (fs, errorInfo fs dst "Ошибка перемещения файла")
      | some c =>
        let fs' := setFS (removeFS fs src) dst c
        (fs', finalizeOk fs' dst)

/-- `FileManager.copy_path` (src/tools/files.py lines 694-714). -/
def copyPath (allowed : String → Bool) (fs : FS) (src dst : String) (confirmed : Bool) :
    FS × FileInfo :=
  match ensureAllowed allowed fs src confirmed "копирования файла" with
  | some denied => (fs, denied)
  | none =>
    match ensureAllowed allowed fs dst confirmed "копирования файла" with
    | some denied => (fs, denied)
    | none =>
      match lookupFS fs src with
      | none => (fs, errorInfo fs dst "Ошибка копирования файла")
      | some c =>
        let fs' := setFS fs dst c
        (fs', finalizeOk fs' dst)

/-- `FileManager.delete_path` (src/tools/files.py lines 716-731): `ok` is
post-operation non-existence. -/
def deletePath (allowed : String → Bool) (fs : FS) (path : String) (confirmed : Bool) :
    FS × FileInfo :=
  match ensureAllowed allowed fs path confirmed "удаления файла" with
  | some denied => (fs, denied)
  | none =>
    let fs' := removeFS fs path
    let insp := inspectFS fs' path
    (fs', { ok := !insp.1, path := path, requiresConfirmation := false,
            fileExists := insp.1, size := insp.2 })

/-- The mutating file operations dispatched by
`IntentRouter._handle_file_operation` (src/intent_router.py
lines 1170-1265); `list_directory` is read-only and outside claim C1. -/
inductive FileOp
  | create (path content : String) (kind : Option String)
  | write (path content : String)
  | append (path content : String)
  | edit (path content : String) (kind : Option String) (cell : Option String)
      (modeWrite : Bool)
  | move (src dst : String)
  | copy (src dst : String)
  | delete (path : String)
  deriving DecidableEq

/-- The dispatch of `IntentRouter._handle_file_operation` into the
`FileManager` calls: `edit` resolves the file kind and picks the word,
excel, pptx, or plain-text (write/append, defaulting the `.txt` suffix)
branch. -/
def runFileOp (officeApply : String → Option String → String → String)
    (allowed : String → Bool) (op : FileOp) (fs : FS) (confirmed : Bool) :
    FS × FileInfo :=
  match op with
  | .create p c kind => createFile allowed fs p c kind confirmed
  | .write p c => writeText allowed fs p c confirmed
  | .append p c => appendText allowed fs p c confirmed
  | .edit p c kind _cell modeWrite =>
    let fileKind := resolveFileKind p kind
    if fileKind = "docx" then editWord officeApply allowed fs p c confirmed
    else if fileKind = "xlsx" then editExcel officeApply allowed fs p c confirmed
    else if fileKind = "pptx" then editPptx officeApply allowed fs p c confirmed
    else
      let target := if pathSuffix p = "" then p ++ ".txt" else p
      if modeWrite then writeText allowed fs target c confirmed
      else appendText allowed fs target c confirmed
  | .move s d => movePath allowed fs s d confirmed
  | .copy s d => copyPath allowed fs s d confirmed
  | .delete p => deletePath allowed fs p confirmed

/-- The response wrap of `IntentRouter._handle_file_operation`
(src/intent_router.py lines 1270-1309): a confirmation-required result
becomes `ok=false, requires_confirmation=true`; a failed one `ok=false`;
a successful one `ok=true`. -/
def fileOpRespond (pr : FS × FileInfo) : FS × Response :=
  let info := pr.2
  if info.requiresConfirmation then
    (pr.1, mkResponse ("Нужно подтверждение для операции по пути: " ++ info.path ++
      " — ответьте «да»") false true)
  else if !info.ok then
    (pr.1, mkResponse ("Ошибка: " ++ (info.error.getD "Не удалось выполнить файловую операцию") ++
      " (" ++ info.path ++ ")") false)
  else (pr.1, mkResponse ("Готово: " ++ info.path) true)

/-- `_handle_file_operation` end to end: run the operation and wrap its
result into the response envelope. -/
def handleFileOperation (officeApply : String → Option String → String → String)
    (allowed : String → Bool) (op : FileOp) (fs : FS) (confirmed : Bool) :
    FS × Response :=
  fileOpRespond (runFileOp officeApply allowed op fs confirmed)

/-- The resolved paths an operation is gated on (for `move`/`copy` both
ends are checked). -/
def opTargets : FileOp → List String
  | .create p _ k => [resolvePathKind p k]
  | .write p _ => [p]
  | .append p _ => [p]
  | .edit p _ kind _ _ =>
    let fileKind := resolveFileKind p kind
    if fileKind = "docx" then [resolvePathKind p (some "docx")]
    else if fileKind = "xlsx" then [resolvePathKind p (some "xlsx")]
    else if fileKind = "pptx" then [resolvePathKind p (some "pptx")]
    else [if pathSuffix p = "" then p ++ ".txt" else p]
  | .move s d => [s, d]
  | .copy s d => [s, d]
  | .delete p => [p]

/-- Side conditions under which the confirmed run succeeds: `move`/`copy`
need an existing source, and `move` distinct ends. -/
def opPrecond (op : FileOp) (fs : FS) : Prop :=
  match op with
  | .move s d => (lookupFS fs s).isSome ∧ s ≠ d
  | .copy s _ => (lookupFS fs s).isSome
  | _ => True

/-- What the confirmed run writes, per operation. -/
def opEffect (officeApply : String → Option String → String → String)
    (op : FileOp) (fs fs' : FS) : Prop :=
  match op with
  | .create p c k => lookupFS fs' (resolvePathKind p k) = some c
  | .write p c => lookupFS fs' p = some c
  | .append p c => lookupFS fs' p = some ((lookupFS fs p).getD "" ++ c)
  | .edit p c kind _ modeWrite =>
    let fileKind := resolveFileKind p kind
    if fileKind = "docx" then
      lookupFS fs' (resolvePathKind p (some "docx")) =
        some (officeApply "docx" (lookupFS fs (resolvePathKind p (some "docx"))) c)
    else if fileKind = "xlsx" then
      lookupFS fs' (resolvePathKind p (some "xlsx")) =
        some (officeApply "xlsx" (lookupFS fs (resolvePathKind p (some "xlsx"))) c)
    else if fileKind = "pptx" then
      lookupFS fs' (resolvePathKind p (some "pptx")) =
        some (officeApply "pptx" (lookupFS fs (resolvePathKind p (some "pptx"))) c)
    else
      let target := if pathSuffix p = "" then p ++ ".txt" else p
      if modeWrite then lookupFS fs' target = some c
      else lookupFS fs' target = some ((lookupFS fs target).getD "" ++ c)
  | .move s d => lookupFS fs' d = lookupFS fs s ∧ lookupFS fs' s = none
  | .copy s d => lookupFS fs' d = lookupFS fs s
  | .delete p => lookupFS fs' p = none

/-- The single-quote character (spelled by code point to keep it out of
textual positions). -/
def squote : Char := Char.ofNat 39

/-- Case-insensitive literal match (regex `re.IGNORECASE`): consume the
word `w` from the front of `l`, returning the remainder. -/
def tryLit : List Char → List Char → Option (List Char)
  | [], rest => some rest
  | _ :: _, [] => none
  | w :: ws, c :: cs => if lowerChar c = w then tryLit ws cs else none

/-- Regex `\s+` before a non-whitespace continuation: at least one
whitespace character, consumed greedily. -/
def tryWs : List Char → Option (List Char)
  | [] => none
  | c :: cs => if isWs c then some ((c :: cs).dropWhile isWs) else none

/-- The quoted-value alternation `"[^"]*"|«.+?»|'[^']*'` of
`IntentInferencer._extract_content` (src/intent_router.py lines 457-462),
matched at the current position; the capture keeps its quotes, as the
regex group does.  (`«.+?»` takes at least one character lazily up to the
first closing guillemet; the model assumes single-line messages, where
`.` never meets a newline.) -/
def tryQuotedAlt : List Char → Option (List Char)
  | [] => none
  | c :: rest =>
    if c = '"' then
      match rest.dropWhile (fun x => x ≠ '"') with
      | _ :: _ => some ('"' :: (rest.takeWhile (fun x => x ≠ '"') ++ ['"']))
      | [] => none
    else if c = '«' then
      match rest with
      | [] => none
      | d :: rest2 =>
        match rest2.dropWhile (fun x => x ≠ '»') with
        | _ :: _ => some ('«' :: d :: (rest2.takeWhile (fun x => x ≠ '»') ++ ['»']))
        | [] => none
    else if c = squote then
      match rest.dropWhile (fun x => x ≠ squote) with
      | _ :: _ => some (squote :: (rest.takeWhile (fun x => x ≠ squote) ++ [squote]))
      | [] => none
    else none

/-- Regex `\s+(?P<value>.+)` at the current position: greedy whitespace,
then the rest of the line as the capture; when nothing is left after the
whitespace, backtracking leaves one whitespace character to `\s+` and
gives the rest to `.+` (single-line model). -/
def tryWsThenRest (l : List Char) : Option (List Char) :=
  let ws := l.takeWhile isWs
  let rest := l.dropWhile isWs
  if ws = [] then none
  else
    let restLine := rest.takeWhile (fun c => c ≠ '\n')
    if restLine ≠ [] then some restLine
    else if 2 ≤ ws.length then some (ws.drop 1)
    else none

/-- Words joined by `\s+`, then the tail matcher (which handles its own
leading whitespace). -/
def seqW : List (List Char) → (List Char → Option (List Char)) → List Char →
    Option (List Char)
  | [], k, l => k l
  | w :: ws, k, l =>
    match tryLit w l with
    | none => none
    | some r =>
      match ws with
      | [] => k r
      | _ :: _ =>
        match tryWs r with
        | none => none
        | some r2 => seqW ws k r2

/-- Tail for the quoted patterns: `\s+` then the quoted alternation. -/
def tailQuoted (l : List Char) : Option (List Char) :=
  match tryWs l with
  | none => none
  | some r => tryQuotedAlt r

/-- `re.search`: try the position matcher at each start, leftmost first. -/
def searchPat (m : List Char → Option (List Char)) : List Char → Option (List Char)
  | [] => none
  | c :: cs =>
    match m (c :: cs) with
    | some v => some v
    | none => searchPat m cs

/-- Position matcher for `с\s+текстом\s+<quoted>` (pattern 1 of
`_extract_content`). -/
def patTextQuoted (l : List Char) : Option (List Char) :=
  seqW [("с").data, ("текстом").data] tailQuoted l

/-- Position matcher for `со\s+содержимым\s+<quoted>` (pattern 2). -/
def patSoderzhQuoted (l : List Char) : Option (List Char) :=
  seqW [("со").data, ("содержимым").data] tailQuoted l

/-- Position matcher for `с\s+содержанием\s+<quoted>` (pattern 3). -/
def patSoderzhaniemQuoted (l : List Char) : Option (List Char) :=
  seqW [("с").data, ("содержанием").data] tailQuoted l

/-- Position matcher for `контент(?:ом)?\s+<quoted>` (pattern 4): the
greedy optional suffix backtracks, so try the long literal first. -/
def patKontentQuoted (l : List Char) : Option (List Char) :=
  match seqW [("контентом").data] tailQuoted l with
  | some v => some v
  | none => seqW [("контент").data] tailQuoted l

/-- Position matcher for `текст(?:ом)?\s+<quoted>` (pattern 5). -/
def patTekstQuoted (l : List Char) : Option (List Char) :=
  match seqW [("текстом").data] tailQuoted l with
  | some v => some v
  | none => seqW [("текст").data] tailQuoted l

/-- Position matcher for `с\s+текстом\s+(?P<value>.+)` (pattern 6). -/
def patTextRest (l : List Char) : Option (List Char) :=
  seqW [("с").data, ("текстом").data] tryWsThenRest l

/-- Position matcher for `контент(?:ом)?\s+(?P<value>.+)` (pattern 7). -/
def patKontentRest (l : List Char) : Option (List Char) :=
  match seqW [("контентом").data] tryWsThenRest l with
  | some v => some v
  | none => seqW [("контент").data] tryWsThenRest l

/-- Position matcher for `текст(?:ом)?\s+(?P<value>.+)` (pattern 8). -/
def patTekstRest (l : List Char) : Option (List Char) :=
  match seqW [("текстом").data] tryWsThenRest l with
  | some v => some v
  | none => seqW [("текст").data] tryWsThenRest l

/-- `IntentInferencer._strip_quotes` (src/intent_router.py
lines 476-485): strip, then drop one symmetric pair of quotes or
guillemets.  (The source's second guillemet check is subsumed by the
first branch: any string of length ≥ 2 starting with `«` goes through
it.) -/
def stripQuotesL (l : List Char) : List Char :=
  let t := pyStripL l
  match t with
  | [] => []
  | c :: rest =>
    if rest = [] then t
    else if c = '"' ∨ c = squote ∨ c = '«' then
      let closing := if c = '«' then '»' else c
      if t.getLast? = some closing then (t.drop 1).dropLast else t
    else t

/-- `re.split(r":\s+", message, maxsplit=1)` restricted to its use in
`_extract_content` (lines 471-473): the remainder after the first
(leftmost) colon that is followed by whitespace, with the whitespace run
consumed. -/
def colonRemainder : List Char → Option (List Char)
  | [] => none
  | a :: l =>
    match l with
    | [] => none
    | c :: rest =>
      if a = ':' ∧ isWs c = true then some ((c :: rest).dropWhile isWs)
      else colonRemainder (c :: rest)

/-- No colon-followed-by-whitespace pair occurs in the list: on such a
message `re.split(r":\s+")` finds nothing to split. -/
def noColonWs : List Char → Bool
  | [] => true
  | a :: l =>
    match l with
    | [] => true
    | c :: rest => !(decide (a = ':') && isWs c) && noColonWs (c :: rest)

/-- A capture of the quoted alternation: one of the three quote styles of
`_extract_content` wrapped around its interior `v`. -/
def quotedCapture (cap v : List Char) : Prop :=
  cap = '"' :: (v ++ ['"']) ∨ cap = '«' :: (v ++ ['»']) ∨
    cap = squote :: (v ++ [squote])

/-- None of the eight content-phrase patterns of `_extract_content`
matches anywhere in the message ("no with-text/content phrase is
present"). -/
def noPhraseMatch (msg : List Char) : Prop :=
  searchPat patTextQuoted msg = none ∧ searchPat patSoderzhQuoted msg = none ∧
  searchPat patSoderzhaniemQuoted msg = none ∧ searchPat patKontentQuoted msg = none ∧
  searchPat patTekstQuoted msg = none ∧ searchPat patTextRest msg = none ∧
  searchPat patKontentRest msg = none ∧ searchPat patTekstRest msg = none

/-- `IntentInferencer._extract_content` (src/intent_router.py
lines 456-474): the eight patterns in order, each searched over the whole
message; the first match's capture is stripped of whitespace and quotes;
failing all, the colon split; failing that, the empty string. -/
def extractContentL (msg : List Char) : List Char :=
  match searchPat patTextQuoted msg with
  | some v => stripQuotesL (pyStripL v)
  | none =>
  match searchPat patSoderzhQuoted msg with
  | some v => stripQuotesL (pyStripL v)
  | none =>
  match searchPat patSoderzhaniemQuoted msg with
  | some v => stripQuotesL (pyStripL v)
  | none =>
  match searchPat patKontentQuoted msg with
  | some v => stripQuotesL (pyStripL v)
  | none =>
  match searchPat patTekstQuoted msg with
  | some v => stripQuotesL (pyStripL v)
  | none =>
  match searchPat patTextRest msg with
  | some v => stripQuotesL (pyStripL v)
  | none =>
  match searchPat patKontentRest msg with
  | some v => stripQuotesL (pyStripL v)
  | none =>
  match searchPat patTekstRest msg with
  | some v => stripQuotesL (pyStripL v)
  | none =>
  match colonRemainder msg with
  | some r => stripQuotesL (pyStripL r)
  | none => []

/-- `_extract_content` on a `String`. -/
def extractContent (msg : String) : String := ⟨extractContentL msg.data⟩

/-- Modelled from the spec: classification of a confirmation reply
(§4.6 — "only yes/no/explicit-force-confirm utterances are accepted").
The pending-action consumption logic is not under src/ (only the
`PendingAction` dataclass, the `AgentSession.pending` field and a reader
in main.py are); the affirmative/negative word sets follow the spec's
examples («да»/«нет»). -/
inductive ConfirmReply
  | affirmative
  | negative
  | other
  deriving DecidableEq

/-- Modelled from the spec: reply classification for the confirmation
state machine. -/
def classifyReply (s : String) : ConfirmReply :=
  let t : List Char := lowerL (pyStripL s.data)
  if t = ("да").data ∨ t = ("yes").data ∨ t = ("y").data then .affirmative
  else if t = ("нет").data ∨ t = ("no").data ∨ t = ("n").data then .negative
  else .other

/-- Outcome tag of one confirmation-layer step. -/
inductive ConfirmOutcome
  | executed
  | cancelled
  | reprompted
  | passthrough
  deriving DecidableEq

/-- Modelled from the spec: the confirmation state machine of §4.6.
`Idle` is `pending = none`, `AwaitingConfirmation` is `pending = some
callback`.  An affirmative reply (or `force_confirm`) executes the stored
callback on the world and clears the pending action; a negative reply
discards it; anything else re-prompts and keeps it; with nothing pending
the message passes through to normal handling. -/
def pendingStep {W : Type} (pending : Option (W → W)) (reply : String)
    (forceConfirm : Bool) (w : W) : Option (W → W) × W × ConfirmOutcome :=
  match pending with
  | none => (none, w, .passthrough)
  | some act =>
    if classifyReply reply = .affirmative ∨ forceConfirm = true then
      (none, act w, .executed)
    else if classifyReply reply = .negative then (none, w, .cancelled)
    else (some act, w, .reprompted)

/-- Modelled from the spec: the Disambiguation Policy decisions (§4.4). -/
inductive ScoreDecision
  | openApp
  | searchFile
  | searchWeb
  | openFile
  | openWeb
  | clarify
  | unknownChat
  deriving DecidableEq

/-- Modelled from the spec: the Disambiguation Policy (§4.4, rules 1-8)
over the three domain scores and the explicit-search flag.  The domain
scorers and this policy are not part of src/intent_router.py's regex
cascade; the rule order and thresholds are the spec's. -/
def disambiguate (app file web : ℚ) (explicitSearch : Bool) : ScoreDecision :=
  if 0.8 ≤ app ∧ max file web + 0.1 < app then .openApp
  else if explicitSearch then (if web ≤ file then .searchFile else .searchWeb)
  else if 0.75 ≤ app ∧ max file web + 0.05 < app then .openApp
  else if 0.62 ≤ file ∧ web - 0.05 ≤ file then .openFile
  else if 0.62 ≤ web then .openWeb
  else if 0.55 ≤ file ∧ 0.55 ≤ web ∧ |file - web| ≤ 0.12 then .clarify
  else if 0.6 ≤ app then .openApp
  else .unknownChat

/-- Modelled from the spec: the ambiguous branch returns a clarification
question and takes no action (§4.4 rule 6, §7 "Ambiguous input"). -/
def clarifyResponse (st : SessionState) : SessionState × String :=
  (st, "открыть как файл или как сайт?")

/-! Helper lemmas (shared; none of these is a claim theorem). -/

theorem pyStripL_all_ws (l : List Char) (h : ∀ c ∈ l, isWs c = true) :
    pyStripL l = [] := by
  have : l.dropWhile isWs = [] := List.dropWhile_eq_nil_iff.mpr (by simpa using h)
  simp [pyStripL, this]

theorem getResults_clearResults (st : SessionState) (k : Option String) :
    getResults (clearResults st) k = [] := by
  cases k <;> simp [getResults, clearResults]

theorem applyCtxOp_preserves_inv (st : SessionState) (op : CtxOp)
    (h : st.lastResults = [] → st.lastKind = "none") :
    (applyCtxOp st op).lastResults = [] → (applyCtxOp st op).lastKind = "none" := by
  cases op with
  | set results kind now =>
    simp only [applyCtxOp, setResults]
    split
    · next hf =>
      intro habs
      simp only at habs
      exact absurd habs hf
    · simp [clearResults]
  | clear => simp [applyCtxOp, clearResults]
  | get k => exact h

theorem runCtxOps_preserves_inv (ops : List CtxOp) (st : SessionState)
    (h : st.lastResults = [] → st.lastKind = "none") :
    (runCtxOps ops st).lastResults = [] → (runCtxOps ops st).lastKind = "none" := by
  induction ops generalizing st with
  | nil => simpa [runCtxOps] using h
  | cons op rest ih =>
    simp only [runCtxOps, List.foldl_cons] at *
    exact ih (applyCtxOp st op) (applyCtxOp_preserves_inv st op h)

theorem resolveContextIndex_lt (token : String) (total : Nat) (i : Nat)
    (h : resolveContextIndex token total = some i) : i < total := by
  unfold resolveContextIndex at h
  split at h
  · exact absurd h (by simp)
  · next idx _ =>
    split at h
    · simp at h
    · next hcond =>
      simp only [Option.some.injEq] at h
      push_neg at hcond
      omega

theorem hasStem_exists (stem l : List Char) (h : hasStem stem l = true) :
    ∃ r, l = stem ++ r := by
  induction stem generalizing l with
  | nil => exact ⟨l, rfl⟩
  | cons p ps ih =>
    cases l with
    | nil => simp [hasStem] at h
    | cons c cs =>
      simp only [hasStem, Bool.and_eq_true, decide_eq_true_eq] at h
      obtain ⟨rfl, h2⟩ := h
      obtain ⟨r, hr⟩ := ih cs h2
      exact ⟨r, by simp [hr]⟩

theorem resolveContextIndex_of_raw (token : String) (n : Nat) (v : Int)
    (hraw : rawContextIndex (lowerL token.data) n = some v)
    (h0 : 0 ≤ v) (hlt : v < (n : Int)) :
    resolveContextIndex token n = some v.toNat := by
  unfold resolveContextIndex
  rw [hraw]
  have h : ¬(v < 0 ∨ (n : Int) ≤ v) := by push_neg; exact ⟨by omega, by omega⟩
  show (if v < 0 ∨ (n : Int) ≤ v then none else some v.toNat) = some v.toNat
  rw [if_neg h]

theorem resolveContextIndex_ne_nil (token : String) (st : SessionState) (i : Nat)
    (hres : resolveContextIndex token st.lastResults.length = some i) :
    st.lastResults ≠ [] := by
  have hlt : i < st.lastResults.length := resolveContextIndex_lt _ _ _ hres
  intro he
  rw [he] at hlt
  simp at hlt

theorem handleContextReference_file_case (openOk openWebOk launchOk : String → Bool)
    (now : ℤ) (st : SessionState) (token : String) (i : Nat)
    (hkind : st.lastKind = "file")
    (hres : resolveContextIndex token st.lastResults.length = some i)
    (hents : ∀ e ∈ st.lastResults,
      isContextShapedToken (lowerL e.data) = false ∧ pyStrip e = e ∧ e ≠ "") :
    (handleContextReference openOk openWebOk launchOk now token st).2.2 =
      some (st.lastResults.getD i "") ∧
    (handleContextReference openOk openWebOk launchOk now token st).1 = st := by
  have hlt : i < st.lastResults.length := resolveContextIndex_lt _ _ _ hres
  have hne : st.lastResults ≠ [] := resolveContextIndex_ne_nil token st i hres
  have hmem : st.lastResults.getD i "" ∈ st.lastResults := by
    rw [List.getD_eq_get _ _ hlt]
    exact List.get_mem _ _ _
  obtain ⟨hshape, hstrip, hnemp⟩ := hents _ hmem
  have hmain : handleContextReference openOk openWebOk launchOk now token st =
      openOutcome openOk st (st.lastResults.getD i "") := by
    simp only [handleContextReference, if_neg hne, hres, hkind, if_pos,
      handleOpenFile, hstrip, hnemp, hshape]
    simp [hnemp, hshape, hstrip]
  have hout1 : (openOutcome openOk st (st.lastResults.getD i "")).2.2 =
      some (st.lastResults.getD i "") := by
    unfold openOutcome
    by_cases hop : openOk (st.lastResults.getD i "") = true
    · rw [if_pos hop]
    · rw [if_neg hop]
  have hout2 : (openOutcome openOk st (st.lastResults.getD i "")).1 = st := by
    unfold openOutcome
    by_cases hop : openOk (st.lastResults.getD i "") = true
    · rw [if_pos hop]
    · rw [if_neg hop]
  exact ⟨by rw [hmain]; exact hout1, by rw [hmain]; exact hout2⟩

theorem handleContextReference_web_case (openOk openWebOk launchOk : String → Bool)
    (now : ℤ) (st : SessionState) (token : String) (i : Nat)
    (hkind : st.lastKind = "web")
    (hres : resolveContextIndex token st.lastResults.length = some i) :
    (handleContextReference openOk openWebOk launchOk now token st).2.2 =
      some (st.lastResults.getD i "") ∧
    (handleContextReference openOk openWebOk launchOk now token st).1.lastResults =
      st.lastResults ∧
    (handleContextReference openOk openWebOk launchOk now token st).1.lastKind =
      st.lastKind := by
  have hne : st.lastResults ≠ [] := resolveContextIndex_ne_nil token st i hres
  have hmain : handleContextReference openOk openWebOk launchOk now token st =
      (if openWebOk (st.lastResults.getD i "") = true then
        ({ st with lastUpdated := now },
          mkResponse ("Открыт сайт: " ++ st.lastResults.getD i "") true,
          some (st.lastResults.getD i ""))
      else (st, mkResponse ("Ошибка: " ++ st.lastResults.getD i "") false,
          some (st.lastResults.getD i ""))) := by
    unfold handleContextReference
    rw [if_neg hne, hres, hkind]
    rfl
  refine ⟨?_, ?_, ?_⟩ <;> rw [hmain] <;>
    by_cases hw : openWebOk (st.lastResults.getD i "") = true
  · rw [if_pos hw]
  · rw [if_neg hw]
  · rw [if_pos hw]
  · rw [if_neg hw]
  · rw [if_pos hw]
  · rw [if_neg hw]

theorem handleContextReference_app_case (openOk openWebOk launchOk : String → Bool)
    (now : ℤ) (st : SessionState) (token : String) (i : Nat)
    (hkind : st.lastKind = "app")
    (hres : resolveContextIndex token st.lastResults.length = some i) :
    (handleContextReference openOk openWebOk launchOk now token st).2.2 =
      some (st.lastResults.getD i "") ∧
    (handleContextReference openOk openWebOk launchOk now token st).1.lastResults =
      st.lastResults ∧
    (handleContextReference openOk openWebOk launchOk now token st).1.lastKind =
      st.lastKind := by
  have hne : st.lastResults ≠ [] := resolveContextIndex_ne_nil token st i hres
  have hmain : handleContextReference openOk openWebOk launchOk now token st =
      (if launchOk (st.lastResults.getD i "") = true then
        ({ st with lastUpdated := now },
          mkResponse ("Открыто: " ++ st.lastResults.getD i "") true,
          some (st.lastResults.getD i ""))
      else (st, mkResponse "Не удалось открыть приложение" false,
          some (st.lastResults.getD i ""))) := by
    unfold handleContextReference
    rw [if_neg hne, hres, hkind]
    rfl
  refine ⟨?_, ?_, ?_⟩ <;> rw [hmain] <;>
    by_cases hw : launchOk (st.lastResults.getD i "") = true
  · rw [if_pos hw]
  · rw [if_neg hw]
  · rw [if_pos hw]
  · rw [if_neg hw]
  · rw [if_pos hw]
  · rw [if_neg hw]

theorem lookupFS_cons (x : String × String) (l : FS) (q : String) :
    lookupFS (x :: l) q = if x.1 = q then some x.2 else lookupFS l q := by
  simp only [lookupFS, List.find?_cons]
  by_cases hxq : x.1 = q
  · simp [hxq]
  · have hb : (x.1 == q) = false := beq_eq_false_iff_ne.mpr hxq
    simp [hb, hxq]

theorem lookupFS_removeFS (fs : FS) (p q : String) :
    lookupFS (removeFS fs p) q = if q = p then none else lookupFS fs q := by
  induction fs with
  | nil => simp [lookupFS, removeFS]
  | cons e rest ih =>
    have hfc : removeFS (e :: rest) p =
        if e.1 = p then removeFS rest p else e :: removeFS rest p := by
      simp only [removeFS, List.filter_cons]
      by_cases hep : e.1 = p
      · simp [hep]
      · simp [hep]
    by_cases hep : e.1 = p
    · rw [hfc, if_pos hep, ih]
      by_cases hq : q = p
      · simp [hq]
      · rw [if_neg hq, if_neg hq, lookupFS_cons,
          if_neg (fun hh : e.1 = q => hq (hh.symm.trans hep))]
    · rw [hfc, if_neg hep, lookupFS_cons]
      by_cases heq : e.1 = q
      · have hqp : ¬q = p := fun h => hep (heq.trans h)
        rw [if_pos heq, if_neg hqp, lookupFS_cons, if_pos heq]
      · rw [if_neg heq, ih]
        by_cases hq : q = p
        · simp [hq]
        · rw [if_neg hq, if_neg hq, lookupFS_cons, if_neg heq]

theorem lookupFS_setFS (fs : FS) (p c : String) (q : String) :
    lookupFS (setFS fs p c) q = if q = p then some c else lookupFS fs q := by
  show lookupFS ((p, c) :: removeFS fs p) q = _
  rw [lookupFS_cons]
  by_cases h : q = p
  · simp [h]
  · rw [if_neg (fun hh : (p, c).1 = q => h hh.symm), if_neg h, lookupFS_removeFS,
      if_neg h]

theorem lookupFS_setFS_self (fs : FS) (p c : String) :
    lookupFS (setFS fs p c) p = some c := by
  rw [lookupFS_setFS, if_pos rfl]

theorem ensureAllowed_denied (allowed : String → Bool) (fs : FS) (p opName : String)
    (h : allowed p = false) :
    ensureAllowed allowed fs p false opName = some (makeConfirmation fs p opName) := by
  simp [ensureAllowed, h]

theorem ensureAllowed_confirmed (allowed : String → Bool) (fs : FS) (p opName : String) :
    ensureAllowed allowed fs p true opName = none := by
  simp [ensureAllowed]

theorem fileOpRespond_confirmation (fs : FS) (info : FileInfo)
    (h : info.requiresConfirmation = true) :
    (fileOpRespond (fs, info)).2.ok = false ∧
    (fileOpRespond (fs, info)).2.requiresConfirmation = true ∧
    (fileOpRespond (fs, info)).1 = fs := by
  simp [fileOpRespond, h, mkResponse]

theorem fileOpRespond_success (fs : FS) (info : FileInfo)
    (h1 : info.requiresConfirmation = false) (h2 : info.ok = true) :
    (fileOpRespond (fs, info)).2.ok = true ∧
    (fileOpRespond (fs, info)).2.requiresConfirmation = false ∧
    (fileOpRespond (fs, info)).1 = fs := by
  simp [fileOpRespond, h1, h2, mkResponse]

theorem finalizeOk_of_lookup (fs : FS) (p : String) (c : String)
    (h : lookupFS fs p = some c) :
    (finalizeOk fs p).ok = true ∧ (finalizeOk fs p).requiresConfirmation = false := by
  simp [finalizeOk, inspectFS, h]

theorem runFileOp_gate (officeApply : String → Option String → String → String)
    (allowed : String → Bool) (op : FileOp) (fs : FS)
    (houts : ∀ t ∈ opTargets op, allowed t = false) :
    (runFileOp officeApply allowed op fs false).1 = fs ∧
    (runFileOp officeApply allowed op fs false).2.requiresConfirmation = true ∧
    (runFileOp officeApply allowed op fs false).2.ok = false := by
  cases op with
  | create p c kind =>
    have ha := houts (resolvePathKind p kind) (by simp [opTargets])
    simp [runFileOp, createFile, ensureAllowed_denied _ _ _ _ ha, makeConfirmation]
  | write p c =>
    have ha := houts p (by simp [opTargets])
    simp [runFileOp, writeText, ensureAllowed_denied _ _ _ _ ha, makeConfirmation]
  | append p c =>
    have ha := houts p (by simp [opTargets])
    simp [runFileOp, appendText, ensureAllowed_denied _ _ _ _ ha, makeConfirmation]
  | edit p c kind cell modeWrite =>
    by_cases h1 : resolveFileKind p kind = "docx"
    · have ha := houts (resolvePathKind p (some "docx")) (by simp [opTargets, h1])
      simp [runFileOp, h1, editWord, ensureAllowed_denied _ _ _ _ ha, makeConfirmation]
    · by_cases h2 : resolveFileKind p kind = "xlsx"
      · have ha := houts (resolvePathKind p (some "xlsx")) (by simp [opTargets, h1, h2])
        simp [runFileOp, h1, h2, editExcel, ensureAllowed_denied _ _ _ _ ha,
          makeConfirmation]
      · by_cases h3 : resolveFileKind p kind = "pptx"
        · have ha := houts (resolvePathKind p (some "pptx"))
            (by simp [opTargets, h1, h2, h3])
          simp [runFileOp, h1, h2, h3, editPptx, ensureAllowed_denied _ _ _ _ ha,
            makeConfirmation]
        · have ha := houts (if pathSuffix p = "" then p ++ ".txt" else p)
            (by simp [opTargets, h1, h2, h3])
          cases modeWrite with
          | true =>
            simp [runFileOp, h1, h2, h3, writeText, ensureAllowed_denied _ _ _ _ ha,
              makeConfirmation]
          | false =>
            simp [runFileOp, h1, h2, h3, appendText, ensureAllowed_denied _ _ _ _ ha,
              makeConfirmation]
  | move s d =>
    have hs := houts s (by simp [opTargets])
    simp [runFileOp, movePath, ensureAllowed_denied _ _ _ _ hs, makeConfirmation]
  | copy s d =>
    have hs := houts s (by simp [opTargets])
    simp [runFileOp, copyPath, ensureAllowed_denied _ _ _ _ hs, makeConfirmation]
  | delete p =>
    have ha := houts p (by simp [opTargets])
    simp [runFileOp, deletePath, ensureAllowed_denied _ _ _ _ ha, makeConfirmation]

theorem runFileOp_confirmed (officeApply : String → Option String → String → String)
    (allowed : String → Bool) (op : FileOp) (fs : FS) (hpre : opPrecond op fs) :
    (runFileOp officeApply allowed op fs true).2.requiresConfirmation = false ∧
    (runFileOp officeApply allowed op fs true).2.ok = true ∧
    opEffect officeApply op fs (runFileOp officeApply allowed op fs true).1 := by
  cases op with
  | create p c kind =>
    have hl := lookupFS_setFS_self fs (resolvePathKind p kind) c
    simp [runFileOp, createFile, ensureAllowed_confirmed, finalizeOk, inspectFS, hl,
      opEffect]
  | write p c =>
    have hl := lookupFS_setFS_self fs p c
    simp [runFileOp, writeText, ensureAllowed_confirmed, finalizeOk, inspectFS, hl,
      opEffect]
  | append p c =>
    have hl := lookupFS_setFS_self fs p ((lookupFS fs p).getD "" ++ c)
    simp [runFileOp, appendText, ensureAllowed_confirmed, finalizeOk, inspectFS, hl,
      opEffect]
  | edit p c kind cell modeWrite =>
    by_cases h1 : resolveFileKind p kind = "docx"
    · have hl := lookupFS_setFS_self fs (resolvePathKind p (some "docx"))
        (officeApply "docx" (lookupFS fs (resolvePathKind p (some "docx"))) c)
      simp [runFileOp, h1, editWord, ensureAllowed_confirmed, finalizeOk, inspectFS, hl,
        opEffect]
    · by_cases h2 : resolveFileKind p kind = "xlsx"
      · have hl := lookupFS_setFS_self fs (resolvePathKind p (some "xlsx"))
          (officeApply "xlsx" (lookupFS fs (resolvePathKind p (some "xlsx"))) c)
        simp [runFileOp, h1, h2, editExcel, ensureAllowed_confirmed, finalizeOk,
          inspectFS, hl, opEffect]
      · by_cases h3 : resolveFileKind p kind = "pptx"
        · have hl := lookupFS_setFS_self fs (resolvePathKind p (some "pptx"))
            (officeApply "pptx" (lookupFS fs (resolvePathKind p (some "pptx"))) c)
          simp [runFileOp, h1, h2, h3, editPptx, ensureAllowed_confirmed, finalizeOk,
            inspectFS, hl, opEffect]
        · cases modeWrite with
          | true =>
            have hl := lookupFS_setFS_self fs
              (if pathSuffix p = "" then p ++ ".txt" else p) c
            simp [runFileOp, h1, h2, h3, writeText, ensureAllowed_confirmed, finalizeOk,
              inspectFS, hl, opEffect]
          | false =>
            have hl := lookupFS_setFS_self fs
              (if pathSuffix p = "" then p ++ ".txt" else p)
              ((lookupFS fs (if pathSuffix p = "" then p ++ ".txt" else p)).getD "" ++ c)
            simp [runFileOp, h1, h2, h3, appendText, ensureAllowed_confirmed, finalizeOk,
              inspectFS, hl, opEffect]
  | move s d =>
    obtain ⟨hsome, hneq⟩ := hpre
    obtain ⟨c, hc⟩ := Option.isSome_iff_exists.mp hsome
    have hl := lookupFS_setFS_self (removeFS fs s) d c
    have hl2 : lookupFS (setFS (removeFS fs s) d c) s = none := by
      rw [lookupFS_setFS, if_neg hneq, lookupFS_removeFS, if_pos rfl]
    simp [runFileOp, movePath, ensureAllowed_confirmed, hc, finalizeOk, inspectFS, hl,
      opEffect, hl2]
  | copy s d =>
    obtain ⟨c, hc⟩ := Option.isSome_iff_exists.mp hpre
    have hl := lookupFS_setFS_self fs d c
    simp [runFileOp, copyPath, ensureAllowed_confirmed, hc, finalizeOk, inspectFS, hl,
      opEffect]
  | delete p =>
    have hl : lookupFS (removeFS fs p) p = none := by
      rw [lookupFS_removeFS, if_pos rfl]
    simp [runFileOp, deletePath, ensureAllowed_confirmed, inspectFS, hl, opEffect]

theorem pyStripL_nonws (a b : Char) (v : List Char) (ha : isWs a = false)
    (hb : isWs b = false) :
    pyStripL (a :: (v ++ [b])) = a :: (v ++ [b]) := by
  have h1 : List.dropWhile isWs (a :: (v ++ [b])) = a :: (v ++ [b]) := by
    simp [List.dropWhile_cons, ha]
  have h2 : (a :: (v ++ [b])).reverse = b :: (v.reverse ++ [a]) := by
    simp
  have h3 : List.dropWhile isWs (b :: (v.reverse ++ [a])) =
      b :: (v.reverse ++ [a]) := by
    simp [List.dropWhile_cons, hb]
  simp only [pyStripL, h1, h2, h3]
  simp

theorem getLast?_wrap (x : Char) (w : List Char) (y : Char) :
    (x :: (w ++ [y])).getLast? = some y := by
  rw [show (x :: (w ++ [y])) = (x :: w) ++ [y] from by simp]
  exact List.getLast?_concat _

theorem stripQuotesL_pair (o c : Char) (v : List Char)
    (hp : (o = '"' ∧ c = '"') ∨ (o = '«' ∧ c = '»') ∨ (o = squote ∧ c = squote)) :
    stripQuotesL (pyStripL (o :: (v ++ [c]))) = v := by
  rcases hp with ⟨rfl, rfl⟩ | ⟨rfl, rfl⟩ | ⟨rfl, rfl⟩
  · rw [pyStripL_nonws _ _ _ (by decide) (by decide)]
    unfold stripQuotesL
    rw [pyStripL_nonws _ _ _ (by decide) (by decide)]
    simp only [getLast?_wrap]
    simp [List.dropLast_concat]
  · rw [pyStripL_nonws _ _ _ (by decide) (by decide)]
    unfold stripQuotesL
    rw [pyStripL_nonws _ _ _ (by decide) (by decide)]
    have hne1 : ¬('«' = '"') := by decide
    have hne2 : ¬('«' = squote) := by decide
    simp only [getLast?_wrap]
    simp [List.dropLast_concat, hne1, hne2]
  · rw [pyStripL_nonws _ _ _ (by decide) (by decide)]
    unfold stripQuotesL
    rw [pyStripL_nonws _ _ _ (by decide) (by decide)]
    have hne1 : ¬(squote = '"') := by decide
    have hne2 : ¬(squote = '«') := by decide
    simp only [getLast?_wrap]
    simp [List.dropLast_concat, hne1, hne2]

theorem stripQuotes_of_quotedCapture (cap v : List Char) (hv : quotedCapture cap v) :
    stripQuotesL (pyStripL cap) = v := by
  rcases hv with hc | hc | hc
  · rw [hc]
    exact stripQuotesL_pair _ _ _ (Or.inl ⟨rfl, rfl⟩)
  · rw [hc]
    exact stripQuotesL_pair _ _ _ (Or.inr (Or.inl ⟨rfl, rfl⟩))
  · rw [hc]
    exact stripQuotesL_pair _ _ _ (Or.inr (Or.inr ⟨rfl, rfl⟩))

theorem tryQuotedAlt_cons (c : Char) (rest : List Char) :
    tryQuotedAlt (c :: rest) =
      if c = '"' then
        match rest.dropWhile (fun x => x ≠ '"') with
        | _ :: _ => some ('"' :: (rest.takeWhile (fun x => x ≠ '"') ++ ['"']))
        | [] => none
      else if c = '«' then
        match rest with
        | [] => none
        | d :: rest2 =>
          match rest2.dropWhile (fun x => x ≠ '»') with
          | _ :: _ => some ('«' :: d :: (rest2.takeWhile (fun x => x ≠ '»') ++ ['»']))
          | [] => none
      else if c = squote then
        match rest.dropWhile (fun x => x ≠ squote) with
        | _ :: _ => some (squote :: (rest.takeWhile (fun x => x ≠ squote) ++ [squote]))
        | [] => none
      else none := rfl

theorem tryQuotedAlt_shape (l cap : List Char) (h : tryQuotedAlt l = some cap) :
    ∃ v, quotedCapture cap v := by
  cases l with
  | nil => simp [tryQuotedAlt] at h
  | cons c rest =>
    rw [tryQuotedAlt_cons] at h
    by_cases h1 : c = '"'
    · rw [if_pos h1] at h
      split at h
      · exact ⟨rest.takeWhile (fun x => x ≠ '"'),
          Or.inl ((Option.some.injEq _ _).mp h).symm⟩
      · simp at h
    · rw [if_neg h1] at h
      by_cases h2 : c = '«'
      · rw [if_pos h2] at h
        cases rest with
        | nil => simp at h
        | cons d rest2 =>
          split at h
          · next heq => exact absurd heq (by simp)
          · next c2 cs2 heq =>
            obtain ⟨rfl, rfl⟩ : d = c2 ∧ rest2 = cs2 := by
              injection heq with hd ht
              exact ⟨hd, ht⟩
            split at h
            · refine ⟨d :: rest2.takeWhile (fun x => x ≠ '»'), Or.inr (Or.inl ?_)⟩
              rw [← (Option.some.injEq _ _).mp h]
              simp
            · simp at h
      · rw [if_neg h2] at h
        by_cases h3 : c = squote
        · rw [if_pos h3] at h
          split at h
          · exact ⟨rest.takeWhile (fun x => x ≠ squote),
              Or.inr (Or.inr ((Option.some.injEq _ _).mp h).symm)⟩
          · simp at h
        · rw [if_neg h3] at h
          simp at h

theorem seqW_nil_eq (k : List Char → Option (List Char)) (l : List Char) :
    seqW [] k l = k l := rfl

theorem seqW_cons_nil (w : List Char) (k : List Char → Option (List Char))
    (l : List Char) :
    seqW [w] k l =
      match tryLit w l with
      | none => none
      | some r => k r := rfl

theorem seqW_cons_cons (w w2 : List Char) (ws : List (List Char))
    (k : List Char → Option (List Char)) (l : List Char) :
    seqW (w :: w2 :: ws) k l =
      match tryLit w l with
      | none => none
      | some r =>
        match tryWs r with
        | none => none
        | some r2 => seqW (w2 :: ws) k r2 := rfl

theorem tailQuoted_eq (l : List Char) :
    tailQuoted l =
      match tryWs l with
      | none => none
      | some r => tryQuotedAlt r := rfl

theorem tailQuoted_shape (l cap : List Char) (h : tailQuoted l = some cap) :
    ∃ v, quotedCapture cap v := by
  rw [tailQuoted_eq] at h
  split at h
  · simp at h
  · exact tryQuotedAlt_shape _ _ h

theorem seqW_tailQuoted_shape (words : List (List Char)) (l cap : List Char)
    (h : seqW words tailQuoted l = some cap) : ∃ v, quotedCapture cap v := by
  induction words generalizing l with
  | nil =>
    rw [seqW_nil_eq] at h
    exact tailQuoted_shape _ _ h
  | cons w ws ih =>
    cases ws with
    | nil =>
      rw [seqW_cons_nil] at h
      split at h
      · simp at h
      · exact tailQuoted_shape _ _ h
    | cons w2 ws2 =>
      rw [seqW_cons_cons] at h
      split at h
      · simp at h
      · next r heq =>
        split at h
        · simp at h
        · next r2 heq2 => exact ih r2 h

theorem searchPat_exists (m : List Char → Option (List Char)) (msg cap : List Char)
    (h : searchPat m msg = some cap) : ∃ l, m l = some cap := by
  induction msg with
  | nil => simp [searchPat] at h
  | cons c cs ih =>
    unfold searchPat at h
    split at h
    · next v heq => exact ⟨c :: cs, heq.trans h⟩
    · exact ih h

theorem patQuoted_shape (msg cap : List Char)
    (h : searchPat patTextQuoted msg = some cap ∨
      searchPat patSoderzhQuoted msg = some cap ∨
      searchPat patSoderzhaniemQuoted msg = some cap ∨
      searchPat patKontentQuoted msg = some cap ∨
      searchPat patTekstQuoted msg = some cap) :
    ∃ v, quotedCapture cap v := by
  rcases h with h | h | h | h | h
  · obtain ⟨l, hl⟩ := searchPat_exists _ _ _ h
    exact seqW_tailQuoted_shape _ _ _ hl
  · obtain ⟨l, hl⟩ := searchPat_exists _ _ _ h
    exact seqW_tailQuoted_shape _ _ _ hl
  · obtain ⟨l, hl⟩ := searchPat_exists _ _ _ h
    exact seqW_tailQuoted_shape _ _ _ hl
  · obtain ⟨l, hl⟩ := searchPat_exists _ _ _ h
    unfold patKontentQuoted at hl
    split at hl
    · next heq => exact seqW_tailQuoted_shape _ _ _ (heq.trans hl)
    · exact seqW_tailQuoted_shape _ _ _ hl
  · obtain ⟨l, hl⟩ := searchPat_exists _ _ _ h
    unfold patTekstQuoted at hl
    split at hl
    · next heq => exact seqW_tailQuoted_shape _ _ _ (heq.trans hl)
    · exact seqW_tailQuoted_shape _ _ _ hl

theorem colonRemainder_cons2 (a c : Char) (rest : List Char) :
    colonRemainder (a :: c :: rest) =
      if a = ':' ∧ isWs c = true then some ((c :: rest).dropWhile isWs)
      else colonRemainder (c :: rest) := rfl

theorem noColonWs_cons2 (a c : Char) (rest : List Char) :
    noColonWs (a :: c :: rest) =
      (!(decide (a = ':') && isWs c) && noColonWs (c :: rest)) := rfl

theorem colonRemainder_decomp (pre : List Char) (w : Char) (rest : List Char)
    (hw : isWs w = true) (hpre : noColonWs pre = true) :
    colonRemainder (pre ++ ':' :: w :: rest) =
      some ((w :: rest).dropWhile isWs) := by
  induction pre with
  | nil =>
    simp only [List.nil_append]
    rw [colonRemainder_cons2, if_pos ⟨rfl, hw⟩]
  | cons a pre' ih =>
    cases pre' with
    | nil =>
      simp only [List.cons_append, List.nil_append]
      rw [colonRemainder_cons2, if_neg (fun hc => absurd hc.2 (by decide))]
      rw [colonRemainder_cons2, if_pos ⟨rfl, hw⟩]
    | cons b pre'' =>
      have hh : (!(decide (a = ':') && isWs b)) = true ∧
          noColonWs (b :: pre'') = true := by
        have := hpre
        rw [noColonWs_cons2, Bool.and_eq_true] at this
        exact this
      have hcond : ¬(a = ':' ∧ isWs b = true) := by
        intro hc
        have h1 := hh.1
        rw [hc.1] at h1
        simp [hc.2] at h1
      simp only [List.cons_append]
      rw [colonRemainder_cons2, if_neg hcond]
      have := ih hh.2
      simpa only [List.cons_append] using this

theorem colonRemainder_none_of (msg : List Char) (h : noColonWs msg = true) :
    colonRemainder msg = none := by
  induction msg with
  | nil => rfl
  | cons a l ih =>
    cases l with
    | nil => rfl
    | cons c rest =>
      have hh : (!(decide (a = ':') && isWs c)) = true ∧
          noColonWs (c :: rest) = true := by
        have := h
        rw [noColonWs_cons2, Bool.and_eq_true] at this
        exact this
      have hcond : ¬(a = ':' ∧ isWs c = true) := by
        intro hc
        have h1 := hh.1
        rw [hc.1] at h1
        simp [hc.2] at h1
      rw [colonRemainder_cons2, if_neg hcond]
      exact ih hh.2

/-! Claim theorems. -/

/-- C5 counterexample: `SessionState.get_results` performs no TTL check.
A state whose results were stored at time 0, read at time 1000 (more than
900 seconds later), still yields the full stored list and a kind of
`file`, contradicting "a call to get_results() returns the empty list and
last_kind reads as none". -/
theorem getResults_ignores_ttl_cex :
    ((1000 : ℤ) - (SessionState.mk ["doc.txt"] "file" 0).lastUpdated > 900) ∧
    getResults (SessionState.mk ["doc.txt"] "file" 0) none = ["doc.txt"] ∧
    getResults (SessionState.mk ["doc.txt"] "file" 0) none ≠ [] ∧
    (SessionState.mk ["doc.txt"] "file" 0).lastKind ≠ "none" := by
  decide

/-- C5 (amended): the lazy expiry lives at the head of
`IntentRouter.handle_message`, not inside `get_results`: when the stored
results are nonempty and more than 900 seconds old, the purge clears them
before the turn is processed, so every read within the turn sees the empty
list and kind `none`; `handle_message` hands the purged state to the rest
of the pipeline. -/
theorem ttl_expiry_clears_on_handle_message (st : SessionState) (now : ℤ)
    (k : Option String) (h1 : st.lastResults ≠ []) (h2 : now - st.lastUpdated > 900) :
    getResults (ttlPurge now st) k = [] ∧ (ttlPurge now st).lastKind = "none" ∧
    ∀ rest text, handleMessage rest now text st =
      (if pyStrip text = "" then (st, mkResponse "Пустая команда." false)
       else rest (pyStrip text) (ttlPurge now st)) := by
  have hp : ttlPurge now st = clearResults st := by
    simp [ttlPurge, h1, h2]
  refine ⟨?_, ?_, ?_⟩
  · rw [hp]; exact getResults_clearResults st k
  · rw [hp]; simp [clearResults]
  · intro rest text
    simp [handleMessage]

/-- Witness for C5's amended theorem at a concrete expired state. -/
theorem ttl_expiry_clears_on_handle_message_witness :
    getResults (ttlPurge 1000 (SessionState.mk ["doc.txt"] "file" 0)) none = [] :=
  (ttl_expiry_clears_on_handle_message (SessionState.mk ["doc.txt"] "file" 0) 1000 none
    (by decide) (by decide)).1

/-- C6: over every sequence of `SessionState` operations from the initial
state, empty `last_results` forces `last_kind = "none"` (the invariant is
also preserved from any state satisfying it), and `set_results` with an
empty list clears the state instead of storing the kind. -/
theorem sessionState_empty_results_kind_none :
    (∀ ops : List CtxOp,
      (runCtxOps ops (SessionState.mk [] "none" 0)).lastResults = [] →
      (runCtxOps ops (SessionState.mk [] "none" 0)).lastKind = "none") ∧
    (∀ st : SessionState, ∀ ops : List CtxOp,
      (st.lastResults = [] → st.lastKind = "none") →
      (runCtxOps ops st).lastResults = [] → (runCtxOps ops st).lastKind = "none") ∧
    (∀ st : SessionState, ∀ kind now, setResults st [] kind now = clearResults st) := by
  refine ⟨?_, ?_, ?_⟩
  · intro ops
    exact runCtxOps_preserves_inv ops (SessionState.mk [] "none" 0) (by intro; rfl)
  · intro st ops h
    exact runCtxOps_preserves_inv ops st h
  · intro st kind now
    simp [setResults]

/-- Witness for C6 at a concrete operation sequence ending cleared. -/
theorem sessionState_empty_results_kind_none_witness :
    (runCtxOps [CtxOp.set ["x"] "file" 5, CtxOp.clear]
      (SessionState.mk [] "none" 0)).lastKind = "none" :=
  sessionState_empty_results_kind_none.1 [CtxOp.set ["x"] "file" 5, CtxOp.clear]
    (by decide)

/-- C10: a message that is empty or all whitespace makes `handle_message`
return `Пустая команда.` with `ok = false` and
`requires_confirmation = false`, leaving the state untouched, whatever the
rest of the pipeline (inferencer, LLM fallback) would do — the
continuation is never consulted. -/
theorem empty_message_short_circuits (text : String)
    (h : ∀ c ∈ text.data, isWs c = true) :
    ∀ (rest : String → SessionState → SessionState × Response) (now : ℤ)
      (st : SessionState),
      handleMessage rest now text st = (st, mkResponse "Пустая команда." false) ∧
      (handleMessage rest now text st).2.ok = false ∧
      (handleMessage rest now text st).2.requiresConfirmation = false ∧
      (handleMessage rest now text st).1 = st := by
  intro rest now st
  have hstrip : pyStrip text = "" := by
    show (⟨pyStripL text.data⟩ : String) = ""
    rw [pyStripL_all_ws text.data h]
  simp [handleMessage, hstrip, mkResponse]

/-- Witness for C10 on the two-space message with a nontrivial
continuation. -/
theorem empty_message_short_circuits_witness :
    handleMessage (fun m s => (clearResults s, mkResponse m true)) 0 "  "
      (SessionState.mk ["x"] "file" 0) =
      (SessionState.mk ["x"] "file" 0, mkResponse "Пустая команда." false) :=
  (empty_message_short_circuits "  " (by decide)
    (fun m s => (clearResults s, mkResponse m true)) 0
    (SessionState.mk ["x"] "file" 0)).1

/-- C3: a context reference over a non-empty stored list whose index
resolves out of range answers `ok = false` without any confirmation flag
and leaves the dialogue context (results, kind, timestamp) untouched. -/
theorem context_out_of_range_no_mutation
    (openOk openWebOk launchOk : String → Bool) (now : ℤ) (token : String)
    (st : SessionState) (hne : st.lastResults ≠ [])
    (hnone : resolveContextIndex token st.lastResults.length = none) :
    handleContextReference openOk openWebOk launchOk now token st =
      (st, mkResponse ("Выберите число от 1 до " ++ toString st.lastResults.length ++
        " или используйте 'первый/последний'.") false, none) ∧
    (handleContextReference openOk openWebOk launchOk now token st).1 = st ∧
    (handleContextReference openOk openWebOk launchOk now token st).2.1.ok = false ∧
    (handleContextReference openOk openWebOk launchOk now token st).2.1.requiresConfirmation
      = false := by
  have h : handleContextReference openOk openWebOk launchOk now token st =
      (st, mkResponse ("Выберите число от 1 до " ++ toString st.lastResults.length ++
        " или используйте 'первый/последний'.") false, none) := by
    simp [handleContextReference, hne, hnone]
  exact ⟨h, by rw [h], by rw [h]; rfl, by rw [h]; rfl⟩

/-- Witness for C3: two stored results, reference `100`. -/
theorem context_out_of_range_no_mutation_witness :
    (handleContextReference (fun _ => true) (fun _ => true) (fun _ => true) 5 "100"
      (SessionState.mk ["C:/a.png", "C:/b.png"] "file" 0)).1 =
      SessionState.mk ["C:/a.png", "C:/b.png"] "file" 0 :=
  (context_out_of_range_no_mutation (fun _ => true) (fun _ => true) (fun _ => true) 5 "100"
    (SessionState.mk ["C:/a.png", "C:/b.png"] "file" 0) (by decide) (by decide)).2.1

/-- C4 counterexample: with stored file results `["2", "b"]`, the
reference `1` dereferences item `"2"`, which `_handle_open_file`
re-interprets as a fresh context reference and opens `R[1] = "b"` instead
of `R[0] = "2"` — the dereferenced target does not equal `R[index]` for
every stored list. -/
theorem context_reference_target_cex :
    (handleContextReference (fun _ => true) (fun _ => true) (fun _ => true) 1 "1"
      (SessionState.mk ["2", "b"] "file" 0)).2.2 = some "b" ∧
    (["2", "b"].getD 0 "" = "2") ∧
    (handleContextReference (fun _ => true) (fun _ => true) (fun _ => true) 1 "1"
      (SessionState.mk ["2", "b"] "file" 0)).2.2 ≠ some (["2", "b"].getD 0 "") := by
  decide

/-- C4 (amended): an in-range reference dereferences exactly `R[index]`
for every stored kind, the stored list and kind are not replaced by the
re-access, and repeating the reference yields the same target — for web-
and app-kind results unconditionally, and for file-kind results provided
no stored entry itself looks like a context-reference token (digit
string, pronoun, or перв/втор/трет/послед stem) and entries are nonempty
without surrounding whitespace, since `_handle_open_file` strips and
re-interprets the dereferenced item; the paths the code stores satisfy
these.  The resolution map is the claimed one: digit string `d` → `d-1`,
"последн…" → `n-1`, pronouns and "перв…" → `0`, "втор…" → `1`,
"трет…" → `2`, each under its in-range condition. -/
theorem context_reference_dereference
    (openOk openWebOk launchOk : String → Bool) (now : ℤ) (st : SessionState)
    (token : String) (i : Nat)
    (hres : resolveContextIndex token st.lastResults.length = some i) :
    (st.lastKind = "file" →
      (∀ e ∈ st.lastResults,
        isContextShapedToken (lowerL e.data) = false ∧ pyStrip e = e ∧ e ≠ "") →
      (handleContextReference openOk openWebOk launchOk now token st).2.2 =
        some (st.lastResults.getD i "") ∧
      (handleContextReference openOk openWebOk launchOk now token st).1 = st ∧
      (handleContextReference openOk openWebOk launchOk now token
          (handleContextReference openOk openWebOk launchOk now token st).1).2.2 =
        some (st.lastResults.getD i "")) ∧
    (st.lastKind = "web" →
      (handleContextReference openOk openWebOk launchOk now token st).2.2 =
        some (st.lastResults.getD i "") ∧
      (handleContextReference openOk openWebOk launchOk now token st).1.lastResults =
        st.lastResults ∧
      (handleContextReference openOk openWebOk launchOk now token st).1.lastKind =
        st.lastKind ∧
      (handleContextReference openOk openWebOk launchOk now token
          (handleContextReference openOk openWebOk launchOk now token st).1).2.2 =
        some (st.lastResults.getD i "")) ∧
    (st.lastKind = "app" →
      (handleContextReference openOk openWebOk launchOk now token st).2.2 =
        some (st.lastResults.getD i "") ∧
      (handleContextReference openOk openWebOk launchOk now token st).1.lastResults =
        st.lastResults ∧
      (handleContextReference openOk openWebOk launchOk now token st).1.lastKind =
        st.lastKind ∧
      (handleContextReference openOk openWebOk launchOk now token
          (handleContextReference openOk openWebOk launchOk now token st).1).2.2 =
        some (st.lastResults.getD i "")) ∧
    (∀ (t : String) (n : Nat), isDigitL (lowerL t.data) = true →
      1 ≤ digitsToNat (lowerL t.data) → digitsToNat (lowerL t.data) ≤ n →
      resolveContextIndex t n = some (digitsToNat (lowerL t.data) - 1)) ∧
    (∀ (t : String) (n : Nat), hasStem (("последн").data) (lowerL t.data) = true →
      0 < n → resolveContextIndex t n = some (n - 1)) ∧
    (∀ (t : String) (n : Nat), lowerL t.data ∈ pronounTokens → 0 < n →
      resolveContextIndex t n = some 0) ∧
    (∀ (t : String) (n : Nat), hasStem (("перв").data) (lowerL t.data) = true →
      0 < n → resolveContextIndex t n = some 0) ∧
    (∀ (t : String) (n : Nat), hasStem (("втор").data) (lowerL t.data) = true →
      2 ≤ n → resolveContextIndex t n = some 1) ∧
    (∀ (t : String) (n : Nat), hasStem (("трет").data) (lowerL t.data) = true →
      3 ≤ n → resolveContextIndex t n = some 2) := by
  refine ⟨?_, ?_, ?_, ?_, ?_, ?_, ?_, ?_, ?_⟩
  · intro hkind hents
    obtain ⟨h1, h2⟩ := handleContextReference_file_case openOk openWebOk launchOk now
      st token i hkind hres hents
    exact ⟨h1, h2, by rw [h2]; exact h1⟩
  · intro hkind
    obtain ⟨h1, h2, h3⟩ := handleContextReference_web_case openOk openWebOk launchOk
      now st token i hkind hres
    refine ⟨h1, h2, h3, ?_⟩
    have hkind2 : (handleContextReference openOk openWebOk launchOk now token
        st).1.lastKind = "web" := by rw [h3, hkind]
    have hres2 : resolveContextIndex token
        (handleContextReference openOk openWebOk launchOk now token
          st).1.lastResults.length = some i := by rw [h2]; exact hres
    have hrep := handleContextReference_web_case openOk openWebOk launchOk now
      (handleContextReference openOk openWebOk launchOk now token st).1 token i
      hkind2 hres2
    rw [hrep.1, h2]
  · intro hkind
    obtain ⟨h1, h2, h3⟩ := handleContextReference_app_case openOk openWebOk launchOk
      now st token i hkind hres
    refine ⟨h1, h2, h3, ?_⟩
    have hkind2 : (handleContextReference openOk openWebOk launchOk now token
        st).1.lastKind = "app" := by rw [h3, hkind]
    have hres2 : resolveContextIndex token
        (handleContextReference openOk openWebOk launchOk now token
          st).1.lastResults.length = some i := by rw [h2]; exact hres
    have hrep := handleContextReference_app_case openOk openWebOk launchOk now
      (handleContextReference openOk openWebOk launchOk now token st).1 token i
      hkind2 hres2
    rw [hrep.1, h2]
  · intro t n hdig h1 hn
    have hraw : rawContextIndex (lowerL t.data) n =
        some ((digitsToNat (lowerL t.data) : Int) - 1) := by
      simp [rawContextIndex, hdig]
    rw [resolveContextIndex_of_raw t n _ hraw (by omega) (by omega)]
    congr 1
    omega
  · intro t n hstem hn
    obtain ⟨r, hr⟩ := hasStem_exists _ _ hstem
    have hraw : rawContextIndex (lowerL t.data) n = some ((n : Int) - 1) := by
      rw [hr]
      simp [rawContextIndex, isDigitL, hasStem,
        show ('п' : Char).isDigit = false from by decide]
    rw [resolveContextIndex_of_raw t n _ hraw (by omega) (by omega)]
    congr 1
    omega
  · intro t n hmem' hn
    have hraw : rawContextIndex (lowerL t.data) n = some 0 := by
      simp only [pronounTokens, List.mem_cons, List.not_mem_nil, or_false] at hmem'
      rcases hmem' with h | h | h | h <;>
        · rw [h]
          simp [rawContextIndex, isDigitL, hasStem, Char.isDigit, pronounTokens]
    rw [resolveContextIndex_of_raw t n _ hraw (by omega) (by omega)]
    rfl
  · intro t n hstem hn
    obtain ⟨r, hr⟩ := hasStem_exists _ _ hstem
    have hraw : rawContextIndex (lowerL t.data) n = some 0 := by
      rw [hr]
      simp [rawContextIndex, isDigitL, hasStem, pronounTokens,
        show ('п' : Char).isDigit = false from by decide]
    rw [resolveContextIndex_of_raw t n _ hraw (by omega) (by omega)]
    rfl
  · intro t n hstem hn
    obtain ⟨r, hr⟩ := hasStem_exists _ _ hstem
    have hraw : rawContextIndex (lowerL t.data) n = some 1 := by
      rw [hr]
      simp [rawContextIndex, isDigitL, hasStem, pronounTokens,
        show ('в' : Char).isDigit = false from by decide]
    rw [resolveContextIndex_of_raw t n _ hraw (by omega) (by omega)]
    rfl
  · intro t n hstem hn
    obtain ⟨r, hr⟩ := hasStem_exists _ _ hstem
    have hraw : rawContextIndex (lowerL t.data) n = some 2 := by
      rw [hr]
      simp [rawContextIndex, isDigitL, hasStem, pronounTokens,
        show ('т' : Char).isDigit = false from by decide]
    rw [resolveContextIndex_of_raw t n _ hraw (by omega) (by omega)]
    rfl

/-- Witness for C4's amended theorem: two stored paths of file kind,
reference `2` dereferences the second. -/
theorem context_reference_dereference_witness :
    (handleContextReference (fun _ => true) (fun _ => true) (fun _ => true) 5 "2"
      (SessionState.mk ["C:/a.png", "C:/b.png"] "file" 0)).2.2 = some "C:/b.png" :=
  ((context_reference_dereference (fun _ => true) (fun _ => true) (fun _ => true) 5
    (SessionState.mk ["C:/a.png", "C:/b.png"] "file" 0) "2" 1 (by decide)).1
    (by decide) (by decide)).1

/-- C1: every mutating file operation (create/write/append/edit/move/
copy/delete) whose resolved target paths lie outside the allow-list and
whose confirmed flag is false returns `ok = false` with
`requires_confirmation = true` and leaves the file system untouched;
the same operation re-run with the confirmed flag (force_confirm) set
performs the write (`ok = true`, no confirmation flag, and the per-
operation effect on the file system). -/
theorem fileOp_outside_allowlist_gate
    (officeApply : String → Option String → String → String)
    (allowed : String → Bool) (op : FileOp) (fs : FS)
    (houts : ∀ t ∈ opTargets op, allowed t = false) (hpre : opPrecond op fs) :
    (handleFileOperation officeApply allowed op fs false).2.ok = false ∧
    (handleFileOperation officeApply allowed op fs false).2.requiresConfirmation = true ∧
    (handleFileOperation officeApply allowed op fs false).1 = fs ∧
    (handleFileOperation officeApply allowed op fs true).2.ok = true ∧
    (handleFileOperation officeApply allowed op fs true).2.requiresConfirmation = false ∧
    opEffect officeApply op fs (handleFileOperation officeApply allowed op fs true).1 := by
  obtain ⟨hfs, hreq, hok⟩ := runFileOp_gate officeApply allowed op fs houts
  obtain ⟨hreq', hok', heff⟩ := runFileOp_confirmed officeApply allowed op fs hpre
  have hden := fileOpRespond_confirmation (runFileOp officeApply allowed op fs false).1
    (runFileOp officeApply allowed op fs false).2 hreq
  have hsuc := fileOpRespond_success (runFileOp officeApply allowed op fs true).1
    (runFileOp officeApply allowed op fs true).2 hreq' hok'
  refine ⟨?_, ?_, ?_, ?_, ?_, ?_⟩
  · simpa [handleFileOperation] using hden.1
  · simpa [handleFileOperation] using hden.2.1
  · have := hden.2.2
    simp only [handleFileOperation]
    rw [show ((runFileOp officeApply allowed op fs false).1,
      (runFileOp officeApply allowed op fs false).2) =
        runFileOp officeApply allowed op fs false from rfl] at this
    rw [this, hfs]
  · simpa [handleFileOperation] using hsuc.1
  · simpa [handleFileOperation] using hsuc.2.1
  · have := hsuc.2.2
    simp only [handleFileOperation]
    rw [show ((runFileOp officeApply allowed op fs true).1,
      (runFileOp officeApply allowed op fs true).2) =
        runFileOp officeApply allowed op fs true from rfl] at this
    rw [this]
    exact heff

/-- Witness for C1: writing `данные` to a path outside the (empty)
allow-list is gated without touching the file system, and the forced
re-run writes it. -/
theorem fileOp_outside_allowlist_gate_witness :
    (handleFileOperation (fun _ o c => o.getD "" ++ c) (fun _ => false)
      (FileOp.write "C:/outside/force.txt" "данные") [] false).2.requiresConfirmation
      = true ∧
    (handleFileOperation (fun _ o c => o.getD "" ++ c) (fun _ => false)
      (FileOp.write "C:/outside/force.txt" "данные") [] false).1 = [] ∧
    opEffect (fun _ o c => o.getD "" ++ c) (FileOp.write "C:/outside/force.txt" "данные")
      []
      (handleFileOperation (fun _ o c => o.getD "" ++ c) (fun _ => false)
        (FileOp.write "C:/outside/force.txt" "данные") [] true).1 := by
  have h := fileOp_outside_allowlist_gate (fun _ o c => o.getD "" ++ c) (fun _ => false)
    (FileOp.write "C:/outside/force.txt" "данные") [] (by decide) (by trivial)
  exact ⟨h.2.1, h.2.2.1, h.2.2.2.2.2⟩

/-- C9: when the path carries a recognized extension (.txt/.docx/.xlsx/
.pptx), the resolved file kind is the extension's kind whatever type
keyword was inferred from the utterance — in the router's
`_resolve_file_kind`, in the file manager's `_detect_kind_from_path`,
and in the create-command override. -/
theorem extension_overrides_inferred_kind (p : String) (kind : Option String) :
    (lowerS (pathSuffix p) = ".txt" → resolveFileKind p kind = "txt" ∧
      detectKindFromPath p kind = "txt" ∧ createKindOverride p kind = some "txt") ∧
    (lowerS (pathSuffix p) = ".docx" → resolveFileKind p kind = "docx" ∧
      detectKindFromPath p kind = "docx" ∧ createKindOverride p kind = some "docx") ∧
    (lowerS (pathSuffix p) = ".xlsx" → resolveFileKind p kind = "xlsx" ∧
      detectKindFromPath p kind = "xlsx" ∧ createKindOverride p kind = some "xlsx") ∧
    (lowerS (pathSuffix p) = ".pptx" → resolveFileKind p kind = "pptx" ∧
      detectKindFromPath p kind = "pptx" ∧ createKindOverride p kind = some "pptx") := by
  refine ⟨?_, ?_, ?_, ?_⟩ <;> intro h <;>
    refine ⟨?_, ?_, ?_⟩ <;>
      simp [resolveFileKind, detectKindFromPath, createKindOverride, h,
        show lookupAL KIND_BY_EXTENSION ".txt" = some "txt" from by decide,
        show lookupAL KIND_BY_EXTENSION ".docx" = some "docx" from by decide,
        show lookupAL KIND_BY_EXTENSION ".xlsx" = some "xlsx" from by decide,
        show lookupAL KIND_BY_EXTENSION ".pptx" = some "pptx" from by decide]

/-- Witness for C9: an upper-case `.DOCX` extension beats the keyword
kind `текст`. -/
theorem extension_overrides_inferred_kind_witness :
    resolveFileKind "C:/Docs/отчёт.DOCX" (some "текст") = "docx" :=
  ((extension_overrides_inferred_kind "C:/Docs/отчёт.DOCX" (some "текст")).2.1
    (by decide)).1

/-- C2 (spec-modelled): from the awaiting-confirmation state, an
affirmative reply (or force_confirm) executes the stored pending action
exactly once on the world and clears `pending`, returning the session to
idle; a further affirmative on the now-idle session passes through
without executing anything. -/
theorem pending_affirmative_executes_once {W : Type} (act : W → W) (w : W)
    (reply : String) (h : classifyReply reply = ConfirmReply.affirmative) :
    pendingStep (some act) reply false w = (none, act w, ConfirmOutcome.executed) ∧
    pendingStep (none : Option (W → W)) reply false (act w) =
      (none, act w, ConfirmOutcome.passthrough) ∧
    (∀ (r : String), pendingStep (some act) r true w =
      (none, act w, ConfirmOutcome.executed)) := by
  refine ⟨?_, rfl, ?_⟩
  · simp [pendingStep, h]
  · intro r
    simp [pendingStep]

/-- Witness for C2 on a counter world with the reply «да». -/
theorem pending_affirmative_executes_once_witness :
    pendingStep (some Nat.succ) "да" false 0 =
      (none, Nat.succ 0, ConfirmOutcome.executed) :=
  (pending_affirmative_executes_once Nat.succ 0 "да" (by decide)).1

/-- C8 counterexample (spec-modelled policy): the pair
`file = web = 0.62` satisfies the claim's conditions — both at least 0.55
and difference at most 0.12 — but Disambiguation rule 4 fires first and
the decision is `open_file`, not a clarification. -/
theorem disambiguation_clarify_cex :
    (0.55 : ℚ) ≤ 0.62 ∧ |(0.62 : ℚ) - 0.62| ≤ 0.12 ∧
    disambiguate 0 0.62 0.62 false = ScoreDecision.openFile ∧
    disambiguate 0 0.62 0.62 false ≠ ScoreDecision.clarify := by
  refine ⟨by norm_num, by norm_num, ?_, ?_⟩
  · unfold disambiguate
    rw [if_neg (by norm_num), if_neg (by norm_num), if_neg (by norm_num),
      if_pos (by norm_num)]
  · unfold disambiguate
    rw [if_neg (by norm_num), if_neg (by norm_num), if_neg (by norm_num),
      if_pos (by norm_num)]
    intro hc
    exact absurd hc (by simp)

/-- C8 (amended, spec-modelled): the clarification branch is reached when
both the file and web scores are at least 0.55 but below 0.62 (so the
difference is automatically within 0.12), the explicit-search flag is
unset, and neither app-score rule fires; it returns the clarification
question with the dialogue state untouched. -/
theorem disambiguation_clarify_amended (app file web : ℚ) (st : SessionState)
    (h1 : ¬(0.8 ≤ app ∧ max file web + 0.1 < app))
    (h3 : ¬(0.75 ≤ app ∧ max file web + 0.05 < app))
    (hf1 : 0.55 ≤ file) (hw1 : 0.55 ≤ web) (hf2 : file < 0.62) (hw2 : web < 0.62)
    (hd : |file - web| ≤ 0.12) :
    disambiguate app file web false = ScoreDecision.clarify ∧
    (clarifyResponse st).1 = st ∧
    (clarifyResponse st).2 = "открыть как файл или как сайт?" := by
  refine ⟨?_, rfl, rfl⟩
  unfold disambiguate
  rw [if_neg h1]
  rw [if_neg (by simp : ¬(false = true))]
  rw [if_neg h3]
  rw [if_neg (fun hc => absurd hc.1 (by linarith))]
  rw [if_neg (by intro hc; linarith)]
  rw [if_pos ⟨hf1, hw1, hd⟩]

/-- Witness for C8's amended theorem at file = web = 0.6. -/
theorem disambiguation_clarify_amended_witness :
    disambiguate 0 0.6 0.6 false = ScoreDecision.clarify :=
  (disambiguation_clarify_amended 0 0.6 0.6 (SessionState.mk [] "none" 0)
    (by norm_num) (by norm_num) (by norm_num) (by norm_num) (by norm_num)
    (by norm_num) (by norm_num)).1

/-- C7 counterexample: the colon fallback of `_extract_content` splits on
`:\s+` — a colon *followed by whitespace* — so for
`запиши в test.txt:привет` (no space after the colon) the code extracts
the empty string, not the remainder `привет` after the first colon that
the claim promises. -/
theorem extract_content_colon_cex :
    extractContentL (("запиши в test.txt:привет").data) = [] ∧
    extractContentL (("запиши в test.txt:привет").data) ≠ ("привет").data ∧
    ("привет").data ≠ ([] : List Char) := by
  decide

/-- C7 (amended): `_extract_content` follows the pattern cascade — for
*every* message on which one of the quoted-value patterns («с текстом»,
«со содержимым», «с содержанием», «контент(ом)», «текст(ом)» followed by
a quoted value in double quotes, guillemets, or single quotes) is the
first to match, the extracted content is exactly the quoted value with
its quotes stripped; when no phrase pattern matches, the content is the
remainder after the first colon *followed by whitespace* (whitespace and
quotes stripped); when there is no such colon either, it is the empty
string — extraction is a total function and never fails. -/
theorem extract_content_spec :
    (∀ msg cap : List Char, searchPat patTextQuoted msg = some cap →
      ∃ v, quotedCapture cap v ∧ extractContentL msg = v) ∧
    (∀ msg cap : List Char, searchPat patTextQuoted msg = none →
      searchPat patSoderzhQuoted msg = some cap →
      ∃ v, quotedCapture cap v ∧ extractContentL msg = v) ∧
    (∀ msg cap : List Char, searchPat patTextQuoted msg = none →
      searchPat patSoderzhQuoted msg = none →
      searchPat patSoderzhaniemQuoted msg = some cap →
      ∃ v, quotedCapture cap v ∧ extractContentL msg = v) ∧
    (∀ msg cap : List Char, searchPat patTextQuoted msg = none →
      searchPat patSoderzhQuoted msg = none →
      searchPat patSoderzhaniemQuoted msg = none →
      searchPat patKontentQuoted msg = some cap →
      ∃ v, quotedCapture cap v ∧ extractContentL msg = v) ∧
    (∀ msg cap : List Char, searchPat patTextQuoted msg = none →
      searchPat patSoderzhQuoted msg = none →
      searchPat patSoderzhaniemQuoted msg = none →
      searchPat patKontentQuoted msg = none →
      searchPat patTekstQuoted msg = some cap →
      ∃ v, quotedCapture cap v ∧ extractContentL msg = v) ∧
    (∀ (pre rest : List Char) (w : Char),
      noPhraseMatch (pre ++ ':' :: w :: rest) → isWs w = true →
      noColonWs pre = true →
      extractContentL (pre ++ ':' :: w :: rest) =
        stripQuotesL (pyStripL ((w :: rest).dropWhile isWs))) ∧
    (∀ msg : List Char, noPhraseMatch msg → noColonWs msg = true →
      extractContentL msg = []) := by
  refine ⟨?_, ?_, ?_, ?_, ?_, ?_, ?_⟩
  · intro msg cap h
    obtain ⟨v, hv⟩ := patQuoted_shape msg cap (Or.inl h)
    refine ⟨v, hv, ?_⟩
    unfold extractContentL
    rw [h]
    exact stripQuotes_of_quotedCapture _ _ hv
  · intro msg cap h1 h
    obtain ⟨v, hv⟩ := patQuoted_shape msg cap (Or.inr (Or.inl h))
    refine ⟨v, hv, ?_⟩
    unfold extractContentL
    rw [h1, h]
    exact stripQuotes_of_quotedCapture _ _ hv
  · intro msg cap h1 h2 h
    obtain ⟨v, hv⟩ := patQuoted_shape msg cap (Or.inr (Or.inr (Or.inl h)))
    refine ⟨v, hv, ?_⟩
    unfold extractContentL
    rw [h1, h2, h]
    exact stripQuotes_of_quotedCapture _ _ hv
  · intro msg cap h1 h2 h3 h
    obtain ⟨v, hv⟩ := patQuoted_shape msg cap (Or.inr (Or.inr (Or.inr (Or.inl h))))
    refine ⟨v, hv, ?_⟩
    unfold extractContentL
    rw [h1, h2, h3, h]
    exact stripQuotes_of_quotedCapture _ _ hv
  · intro msg cap h1 h2 h3 h4 h
    obtain ⟨v, hv⟩ :=
      patQuoted_shape msg cap (Or.inr (Or.inr (Or.inr (Or.inr h))))
    refine ⟨v, hv, ?_⟩
    unfold extractContentL
    rw [h1, h2, h3, h4, h]
    exact stripQuotes_of_quotedCapture _ _ hv
  · intro pre rest w hnp hw hpre
    obtain ⟨n1, n2, n3, n4, n5, n6, n7, n8⟩ := hnp
    unfold extractContentL
    rw [n1, n2, n3, n4, n5, n6, n7, n8, colonRemainder_decomp pre w rest hw hpre]
  · intro msg hnp hnc
    obtain ⟨n1, n2, n3, n4, n5, n6, n7, n8⟩ := hnp
    unfold extractContentL
    rw [n1, n2, n3, n4, n5, n6, n7, n8, colonRemainder_none_of msg hnc]

/-- Witness for C7's amended theorem: the guillemet-quoted value
`привет мир` after «с текстом». -/
theorem extract_content_spec_witness :
    ∃ v, quotedCapture ('«' :: (("привет мир").data ++ ['»'])) v ∧
      extractContentL (("создай файл заметка.txt с текстом «привет мир»").data) =
        v :=
  extract_content_spec.1
    (("создай файл заметка.txt с текстом «привет мир»").data)
    ('«' :: (("привет мир").data ++ ['»'])) (by decide)

end LocalWinAgent
